import Mathlib

/-!
Verification of the profile persistence and deduplication engine of the
`linkedin_scraper_database` repository (files `src/database/models.py` and
`src/database/operations.py`).

The relational store is shallowly embedded as lists of rows with explicit
per-table autoincrement counters; timestamps are natural numbers; the
SQLAlchemy session discipline (work on a staged copy, commit on success,
rollback on exception) is embedded by computing the new store functionally
and returning the original store on error.  Python's truthiness test on
optional strings (`if value:`) is `truthy` below; `dict.get(k)` on a string
field is an `Option String` record field.
-/

/-- Incoming experience item of the ingest record, keys read by the code:
`position_title`, `institution_name`, `location`, `from_date`, `to_date`,
`duration`, `description` (`operations.py` lines 105-115, 185-195). -/
structure ExpData where
  position_title : Option String
  institution_name : Option String
  location : Option String
  from_date : Option String
  to_date : Option String
  duration : Option String
  description : Option String
  deriving Repr, DecidableEq

/-- Incoming education item of the ingest record (`operations.py` lines
120-129, 201-209). -/
structure EduData where
  institution_name : Option String
  degree : Option String
  from_date : Option String
  to_date : Option String
  description : Option String
  deriving Repr, DecidableEq

/-- The raw `person_data` dictionary passed to `save_profile`. -/
structure PersonData where
  linkedin_url : Option String
  name : Option String
  location : Option String
  job_title : Option String
  company : Option String
  about : Option String
  experiences : List ExpData
  educations : List EduData
  deriving Repr, DecidableEq

/-- A row of the `persons` table (`models.py` class `Person`). -/
structure PersonRow where
  id : Nat
  linkedin_url : String
  name : String
  location : Option String
  current_job_title : Option String
  current_company : Option String
  about : Option String
  first_scraped_at : Nat
  last_scraped_at : Nat
  scrape_count : Nat
  is_active : Bool
  deriving Repr, DecidableEq

/-- A row of the `experiences` table (`models.py` class `Experience`). -/
structure ExperienceRow where
  id : Nat
  person_id : Nat
  position_title : String
  company_name : String
  location : Option String
  from_date : Option String
  to_date : Option String
  duration : Option String
  description : Option String
  created_at : Nat
  deriving Repr, DecidableEq

/-- A row of the `educations` table (`models.py` class `Education`). -/
structure EducationRow where
  id : Nat
  person_id : Nat
  institution_name : String
  degree : Option String
  field_of_study : Option String
  from_date : Option String
  to_date : Option String
  description : Option String
  created_at : Nat
  deriving Repr, DecidableEq

/-- A row of the `profile_history` table (`models.py` class
`ProfileHistory`). -/
structure HistoryRow where
  id : Nat
  person_id : Nat
  changed_field : String
  old_value : Option String
  new_value : Option String
  changed_at : Nat
  deriving Repr, DecidableEq

/-- The relational store: the four tables plus one autoincrement counter per
table (fresh primary keys are never reused). -/
structure Store where
  persons : List PersonRow
  experiences : List ExperienceRow
  educations : List EducationRow
  history : List HistoryRow
  next_person_id : Nat
  next_exp_id : Nat
  next_edu_id : Nat
  next_hist_id : Nat
  deriving Repr, DecidableEq

/-- The empty store. -/
def Store.empty : Store :=
  { persons := [], experiences := [], educations := [], history := [],
    next_person_id := 0, next_exp_id := 0, next_edu_id := 0, next_hist_id := 0 }

/-- Errors `save_profile` can raise: `ValueError("linkedin_url is required")`
or a store-level exception (e.g. a constraint violation) injected during a
child-row insertion. -/
inductive SaveError where
  | validationError
  | storeError
  deriving Repr, DecidableEq

/-- Python truthiness of an optional string: `None` and `""` are falsy. -/
def truthy : Option String → Bool
  | none => false
  | some s => !(s == "")

/-- `str(v) if v else None` applied to an optional string, as in the
History-row constructor at `operations.py` lines 170-171. -/
def strOrNone : Option String → Option String
  | none => none
  | some s => if s = "" then none else some s

/-- `Experience(...)` constructor call shared by the create and update paths
(`operations.py` lines 106-114 and 186-194): note `company_name` is read
from the incoming item's `institution_name` key, and missing
`position_title`/`institution_name` default to `""`. -/
def mkExperienceRow (pid eid now : Nat) (e : ExpData) : ExperienceRow :=
  { id := eid, person_id := pid,
    position_title := e.position_title.getD "",
    company_name := e.institution_name.getD "",
    location := e.location, from_date := e.from_date, to_date := e.to_date,
    duration := e.duration, description := e.description, created_at := now }

/-- `Education(...)` constructor call (`operations.py` lines 121-129 and
202-209); `field_of_study` is always absent/`None`. -/
def mkEducationRow (pid eid now : Nat) (e : EduData) : EducationRow :=
  { id := eid, person_id := pid,
    institution_name := e.institution_name.getD "",
    degree := e.degree, field_of_study := none,
    from_date := e.from_date, to_date := e.to_date,
    description := e.description, created_at := now }

/-- Insert a list of incoming experience items for person `pid`; `fE` is the
failure oracle modelling a store-level exception (constraint violation)
raised while inserting a given item. -/
def insertExperiences (fE : ExpData → Bool) (pid now : Nat) :
    Store → List ExpData → Except SaveError Store
  | s, [] => Except.ok s
  | s, e :: rest =>
    if fE e then Except.error SaveError.storeError
    else insertExperiences fE pid now
      { s with experiences := s.experiences ++ [mkExperienceRow pid s.next_exp_id now e],
               next_exp_id := s.next_exp_id + 1 } rest

/-- Insert a list of incoming education items for person `pid`, with failure
oracle `fD`. -/
def insertEducations (fD : EduData → Bool) (pid now : Nat) :
    Store → List EduData → Except SaveError Store
  | s, [] => Except.ok s
  | s, e :: rest =>
    if fD e then Except.error SaveError.storeError
    else insertEducations fD pid now
      { s with educations := s.educations ++ [mkEducationRow pid s.next_edu_id now e],
               next_edu_id := s.next_edu_id + 1 } rest

/-- One iteration of the scalar-merge loop of `_update_profile`
(`operations.py` lines 158-162): `if new_value and getattr(person, field)
!= new_value`.  Returns the field's new stored value and, when the branch
fires, the `(old_value, new_value)` pair appended to `changes`. -/
def applyField (stored incoming : Option String) :
    Option String × Option (Option String × String) :=
  match incoming with
  | none => (stored, none)
  | some s =>
    if s = "" then (stored, none)
    else if stored = some s then (stored, none)
    else (some s, some (stored, s))

/-- Append the History rows for the recorded changes (`operations.py` lines
165-174), assigning fresh ids in order. -/
def addHistory (pid now : Nat) : Store → List (String × Option String × String) → Store
  | s, [] => s
  | s, (f, old, new) :: rest =>
    addHistory pid now
      { s with
        history := s.history ++
          [{ id := s.next_hist_id, person_id := pid, changed_field := f,
             old_value := strOrNone old,
             new_value := if new = "" then none else some new,
             changed_at := now }],
        next_hist_id := s.next_hist_id + 1 } rest

/-- Tag one field's optional change with its field name. -/
def tagChange (f : String) : Option (Option String × String) →
    List (String × Option String × String)
  | none => []
  | some (old, new) => [(f, old, new)]

/-- The scalar-merge loop of `_update_profile` plus the unconditional
metadata update (`operations.py` lines 147-178): returns the updated Person
row and the recorded `changes` list, in the dict iteration order
name, location, current_job_title, current_company, about. -/
def scalarMerge (p : PersonRow) (now : Nat) (data : PersonData) :
    PersonRow × List (String × Option String × String) :=
  let rn := applyField (some p.name) data.name
  let rl := applyField p.location data.location
  let rj := applyField p.current_job_title data.job_title
  let rc := applyField p.current_company data.company
  let ra := applyField p.about data.about
  let changes :=
    tagChange "name" rn.2 ++ tagChange "location" rl.2 ++
    tagChange "current_job_title" rj.2 ++ tagChange "current_company" rc.2 ++
    tagChange "about" ra.2
  let p1 : PersonRow :=
    { p with
      name := rn.1.getD p.name, location := rl.1, current_job_title := rj.1,
      current_company := rc.1, about := ra.1,
      last_scraped_at := now, scrape_count := p.scrape_count + 1 }
  (p1, changes)

/-- `ProfileManager._update_profile` (`operations.py` lines 134-212):
scalar diff-and-overwrite, optional History rows, unconditional
last-seen/touch update, then replace-all of experiences and educations when
the incoming lists are non-empty. -/
def updateProfile (fE : ExpData → Bool) (fD : EduData → Bool) (now : Nat)
    (s : Store) (p : PersonRow) (data : PersonData) (track : Bool) :
    Except SaveError (Store × PersonRow) :=
  let p1 := (scalarMerge p now data).1
  let changes := (scalarMerge p now data).2
  let s1 : Store :=
    { s with persons := s.persons.map (fun q => if q.id = p.id then p1 else q) }
  let s2 := if track ∧ changes ≠ [] then addHistory p.id now s1 changes else s1
  ((if data.experiences = [] then Except.ok s2
    else insertExperiences fE p.id now
      { s2 with experiences := s2.experiences.filter (fun e => e.person_id ≠ p.id) }
      data.experiences).bind (fun s3 =>
  ((if data.educations = [] then Except.ok s3
    else insertEducations fD p.id now
      { s3 with educations := s3.educations.filter (fun e => e.person_id ≠ p.id) }
      data.educations).bind (fun s4 => Except.ok (s4, p1)))))

/-- The `Person(...)` constructor call of the create path (`operations.py`
lines 89-99): `name` defaults to `"Unknown"`, the other scalars are passed
through, first = last = now, `scrape_count = 1`, and `is_active` comes from
the column default `True` (`models.py` line 51). -/
def newPersonRow (pid now : Nat) (data : PersonData) (url : String) : PersonRow :=
  { id := pid, linkedin_url := url,
    name := data.name.getD "Unknown", location := data.location,
    current_job_title := data.job_title, current_company := data.company,
    about := data.about, first_scraped_at := now, last_scraped_at := now,
    scrape_count := 1, is_active := true }

/-- `ProfileManager._create_profile` (`operations.py` lines 78-132): insert
the Person row and the child rows from the record. -/
def createProfile (fE : ExpData → Bool) (fD : EduData → Bool) (now : Nat)
    (s : Store) (data : PersonData) (url : String) :
    Except SaveError (Store × PersonRow) :=
  let person : PersonRow := newPersonRow s.next_person_id now data url
  let s1 : Store :=
    { s with persons := s.persons ++ [person], next_person_id := s.next_person_id + 1 }
  ((if data.experiences = [] then Except.ok s1
    else insertExperiences fE person.id now s1 data.experiences).bind (fun s2 =>
  ((if data.educations = [] then Except.ok s2
    else insertEducations fD person.id now s2 data.educations).bind
      (fun s3 => Except.ok (s3, person)))))

/-- The body of `save_profile` inside the session (`operations.py` lines
49-69): validate the external identifier, look the person up by
`linkedin_url`, then dispatch to the update or create path. -/
def saveProfileCore (fE : ExpData → Bool) (fD : EduData → Bool) (now : Nat)
    (s : Store) (data : PersonData) (track : Bool) :
    Except SaveError (Store × PersonRow) :=
  if ¬ truthy data.linkedin_url then Except.error SaveError.validationError
  else
    let url := data.linkedin_url.getD ""
    match s.persons.find? (fun p => p.linkedin_url = url) with
    | some p => updateProfile fE fD now s p data track
    | none => createProfile fE fD now s data url

/-- `ProfileManager.save_profile` (`operations.py` lines 33-76): the whole
operation runs in one session; on success the staged store is committed, on
any exception the session is rolled back (the store is unchanged) and the
error is re-raised.  Returns the post-call store and the outcome. -/
def save_profile (fE : ExpData → Bool) (fD : EduData → Bool) (now : Nat)
    (store : Store) (data : PersonData) (track : Bool) :
    Store × Except SaveError PersonRow :=
  match saveProfileCore fE fD now store data track with
  | Except.ok (s, p) => (s, Except.ok p)
  | Except.error e => (store, Except.error e)

/-- The constant-false failure oracle for experiences: no store-level
exception fires. -/
def noFailE : ExpData → Bool := fun _ => false

/-- The constant-false failure oracle for educations. -/
def noFailD : EduData → Bool := fun _ => false

/-- Observable session-lifecycle events of one `save_profile` call. -/
inductive SessionEvent where
  | sessionOpen
  | commit
  | rollback
  | sessionClose
  deriving Repr, DecidableEq

/-- The session-lifecycle trace of `save_profile` (`operations.py` lines
47-76): `session = self.db.get_session()` runs first, before the
`linkedin_url` validation inside the `try`; then commit on success or
rollback on exception, and `finally: session.close()`. -/
def save_profile_events (fE : ExpData → Bool) (fD : EduData → Bool) (now : Nat)
    (store : Store) (data : PersonData) (track : Bool) : List SessionEvent :=
  SessionEvent.sessionOpen ::
    (match saveProfileCore fE fD now store data track with
     | Except.ok _ => [SessionEvent.commit]
     | Except.error _ => [SessionEvent.rollback]) ++ [SessionEvent.sessionClose]

/-- Insert a `(key, count)` pair into a list sorted by descending count
(embedding of SQL `ORDER BY count DESC`; tie order is the store's choice). -/
def insertByCountDesc (x : String × Nat) : List (String × Nat) → List (String × Nat)
  | [] => [x]
  | y :: ys => if y.2 ≤ x.2 then x :: y :: ys else y :: insertByCountDesc x ys

/-- Sort `(key, count)` pairs by descending count. -/
def sortByCountDesc : List (String × Nat) → List (String × Nat)
  | [] => []
  | x :: xs => insertByCountDesc x (sortByCountDesc xs)

/-- `GROUP BY f / COUNT(id) / ORDER BY count DESC / LIMIT`, shared shape of
the three top-N analytics queries: `rows` is the filtered row set, `f`
projects the grouping column. -/
def groupCountTop (rows : List PersonRow) (f : PersonRow → Option String)
    (lim : Nat) : List (String × Nat) :=
  let keys := (rows.filterMap f).dedup
  let pairs := keys.map (fun k => (k, (rows.filter (fun p => f p = some k)).length))
  (sortByCountDesc pairs).take lim

/-- `AnalyticsManager.get_top_companies` (`operations.py` lines 349-373):
active rows with `current_company IS NOT NULL`, grouped and counted by
company, sorted by descending count, capped at `limit`. -/
def get_top_companies (s : Store) (lim : Nat) : List (String × Nat) :=
  groupCountTop
    (s.persons.filter (fun p => p.is_active ∧ p.current_company ≠ none))
    (fun p => p.current_company) lim

/-- `AnalyticsManager.get_top_locations` (`operations.py` lines 375-399). -/
def get_top_locations (s : Store) (lim : Nat) : List (String × Nat) :=
  groupCountTop
    (s.persons.filter (fun p => p.is_active ∧ p.location ≠ none))
    (fun p => p.location) lim

/-- `AnalyticsManager.get_top_positions` (`operations.py` lines 401-425). -/
def get_top_positions (s : Store) (lim : Nat) : List (String × Nat) :=
  groupCountTop
    (s.persons.filter (fun p => p.is_active ∧ p.current_job_title ≠ none))
    (fun p => p.current_job_title) lim

/-- The Person-table invariant: `linkedin_url` is pairwise distinct (SQL
`unique=True`) and never empty/null (`nullable=False` plus the validation in
`save_profile`), primary keys are pairwise distinct, and every assigned key
is below the autoincrement counter. -/
def PersonsInv (s : Store) : Prop :=
  s.persons.Pairwise (fun a b => a.linkedin_url ≠ b.linkedin_url) ∧
    (∀ p ∈ s.persons, p.linkedin_url ≠ "") ∧
    s.persons.Pairwise (fun a b => a.id ≠ b.id) ∧
    (∀ p ∈ s.persons, p.id < s.next_person_id)

/-- Referential integrity of the child tables: every Experience/Education
row's `person_id` references an existing Person row. -/
def ChildFK (s : Store) : Prop :=
  (∀ e ∈ s.experiences, ∃ q ∈ s.persons, e.person_id = q.id) ∧
    (∀ e ∈ s.educations, ∃ q ∈ s.persons, e.person_id = q.id)

/-- The Experience rows that inserting `l` for person `pid` appends, with
ids enumerated from `base`. -/
def expRowsFrom (pid now : Nat) : Nat → List ExpData → List ExperienceRow
  | _, [] => []
  | base, e :: rest => mkExperienceRow pid base now e :: expRowsFrom pid now (base + 1) rest

/-- The Education rows that inserting `l` for person `pid` appends, with ids
enumerated from `base`. -/
def eduRowsFrom (pid now : Nat) : Nat → List EduData → List EducationRow
  | _, [] => []
  | base, e :: rest => mkEducationRow pid base now e :: eduRowsFrom pid now (base + 1) rest

/-- The data-carrying columns of an Experience row (everything except the
surrogate `id` and the `created_at` bookkeeping timestamp). -/
structure ExpContent where
  position_title : String
  company_name : String
  location : Option String
  from_date : Option String
  to_date : Option String
  duration : Option String
  description : Option String
  deriving Repr, DecidableEq

/-- Project an Experience row to its data-carrying columns. -/
def ExperienceRow.content (r : ExperienceRow) : ExpContent :=
  { position_title := r.position_title, company_name := r.company_name,
    location := r.location, from_date := r.from_date, to_date := r.to_date,
    duration := r.duration, description := r.description }

/-- The stored content an incoming experience item maps to (the code's
key-to-column translation, defaults included). -/
def ExpData.content (e : ExpData) : ExpContent :=
  { position_title := e.position_title.getD "",
    company_name := e.institution_name.getD "",
    location := e.location, from_date := e.from_date, to_date := e.to_date,
    duration := e.duration, description := e.description }

/-- The data-carrying columns of an Education row. -/
structure EduContent where
  institution_name : String
  degree : Option String
  field_of_study : Option String
  from_date : Option String
  to_date : Option String
  description : Option String
  deriving Repr, DecidableEq

/-- Project an Education row to its data-carrying columns. -/
def EducationRow.content (r : EducationRow) : EduContent :=
  { institution_name := r.institution_name, degree := r.degree,
    field_of_study := r.field_of_study, from_date := r.from_date,
    to_date := r.to_date, description := r.description }

/-- The stored content an incoming education item maps to. -/
def EduData.content (e : EduData) : EduContent :=
  { institution_name := e.institution_name.getD "", degree := e.degree,
    field_of_study := none, from_date := e.from_date, to_date := e.to_date,
    description := e.description }

/-- The History rows that recording `changes` appends, with ids enumerated
from `base`. -/
def histRowsFrom (pid now : Nat) : Nat → List (String × Option String × String) → List HistoryRow
  | _, [] => []
  | base, c :: rest =>
    { id := base, person_id := pid, changed_field := c.1,
      old_value := strOrNone c.2.1,
      new_value := if c.2.2 = "" then none else some c.2.2,
      changed_at := now } :: histRowsFrom pid now (base + 1) rest

/-- The stored row agrees with the record on every scalar field the record
supplies non-emptily ("saving the same record twice with identical field
values"): each incoming field is either falsy or equal to the stored
value. -/
def FieldsMatch (p : PersonRow) (data : PersonData) : Prop :=
  (truthy data.name = false ∨ data.name = some p.name) ∧
    (truthy data.location = false ∨ data.location = p.location) ∧
    (truthy data.job_title = false ∨ data.job_title = p.current_job_title) ∧
    (truthy data.company = false ∨ data.company = p.current_company) ∧
    (truthy data.about = false ∨ data.about = p.about)

theorem except_ok_bind {α β γ : Type} (a : α) (f : α → Except γ β) :
    (Except.ok a : Except γ α).bind f = f a := rfl

theorem except_error_bind {α β γ : Type} (e : γ) (f : α → Except γ β) :
    (Except.error e : Except γ α).bind f = Except.error e := rfl

theorem except_bind_ok_inv {α β γ : Type} (x : Except γ α) (f : α → Except γ β)
    (v : β) (h : x.bind f = Except.ok v) :
    ∃ a, x = Except.ok a ∧ f a = Except.ok v := by
  cases x with
  | error e => exact absurd h (by simp [except_error_bind])
  | ok a => exact ⟨a, rfl, h⟩

theorem expRowsFrom_content (pid now : Nat) (l : List ExpData) : ∀ base,
    (expRowsFrom pid now base l).map ExperienceRow.content = l.map ExpData.content := by
  induction l with
  | nil => intro base; rfl
  | cons e rest ih =>
    intro base
    simp [expRowsFrom, ih, ExperienceRow.content, ExpData.content, mkExperienceRow]

theorem eduRowsFrom_content (pid now : Nat) (l : List EduData) : ∀ base,
    (eduRowsFrom pid now base l).map EducationRow.content = l.map EduData.content := by
  induction l with
  | nil => intro base; rfl
  | cons e rest ih =>
    intro base
    simp [eduRowsFrom, ih, EducationRow.content, EduData.content, mkEducationRow]

theorem expRowsFrom_person_id (pid now : Nat) (l : List ExpData) : ∀ base,
    ∀ r ∈ expRowsFrom pid now base l, r.person_id = pid := by
  induction l with
  | nil => intro base r hr; cases hr
  | cons e rest ih =>
    intro base r hr
    rcases List.mem_cons.mp hr with h | h
    · subst h; rfl
    · exact ih (base + 1) r h

theorem eduRowsFrom_person_id (pid now : Nat) (l : List EduData) : ∀ base,
    ∀ r ∈ eduRowsFrom pid now base l, r.person_id = pid := by
  induction l with
  | nil => intro base r hr; cases hr
  | cons e rest ih =>
    intro base r hr
    rcases List.mem_cons.mp hr with h | h
    · subst h; rfl
    · exact ih (base + 1) r h

theorem insertExperiences_noFail (pid now : Nat) (l : List ExpData) : ∀ s : Store,
    insertExperiences noFailE pid now s l =
      Except.ok { s with
        experiences := s.experiences ++ expRowsFrom pid now s.next_exp_id l,
        next_exp_id := s.next_exp_id + l.length } := by
  induction l with
  | nil => intro s; simp [insertExperiences, expRowsFrom]
  | cons e rest ih =>
    intro s
    simp only [insertExperiences, noFailE, Bool.false_eq_true, if_false, ih,
      expRowsFrom, List.length_cons]
    congr 1
    simp [List.append_assoc]
    omega

theorem insertEducations_noFail (pid now : Nat) (l : List EduData) : ∀ s : Store,
    insertEducations noFailD pid now s l =
      Except.ok { s with
        educations := s.educations ++ eduRowsFrom pid now s.next_edu_id l,
        next_edu_id := s.next_edu_id + l.length } := by
  induction l with
  | nil => intro s; simp [insertEducations, eduRowsFrom]
  | cons e rest ih =>
    intro s
    simp only [insertEducations, noFailD, Bool.false_eq_true, if_false, ih,
      eduRowsFrom, List.length_cons]
    congr 1
    simp [List.append_assoc]
    omega

theorem addHistory_eq (pid now : Nat) (l : List (String × Option String × String)) :
    ∀ s : Store, addHistory pid now s l =
      { s with history := s.history ++ histRowsFrom pid now s.next_hist_id l,
               next_hist_id := s.next_hist_id + l.length } := by
  induction l with
  | nil => intro s; simp [addHistory, histRowsFrom]
  | cons c rest ih =>
    intro s
    obtain ⟨f, old, new⟩ := c
    simp only [addHistory, ih, histRowsFrom, List.length_cons]
    congr 1
    simp [List.append_assoc]
    omega

/-- Normal form of a successful update-path `save_profile` call with no
store-level failures: the returned row is the scalar merge of the stored row
with the record, persons are updated in place, History grows by one row per
recorded change when tracking, and each non-empty child list is
replace-all-ed. -/
theorem save_update_spec (now : Nat) (s : Store) (data : PersonData)
    (track : Bool) (p : PersonRow)
    (hurl : truthy data.linkedin_url = true)
    (hfind : s.persons.find? (fun q => q.linkedin_url = data.linkedin_url.getD "") = some p) :
    (save_profile noFailE noFailD now s data track).2 =
        Except.ok (scalarMerge p now data).1 ∧
      (save_profile noFailE noFailD now s data track).1.persons =
        s.persons.map (fun q => if q.id = p.id then (scalarMerge p now data).1 else q) ∧
      (save_profile noFailE noFailD now s data track).1.history =
        s.history ++ (if track ∧ (scalarMerge p now data).2 ≠ [] then
          histRowsFrom p.id now s.next_hist_id (scalarMerge p now data).2 else []) ∧
      (save_profile noFailE noFailD now s data track).1.experiences =
        (if data.experiences = [] then s.experiences else
          s.experiences.filter (fun e => e.person_id ≠ p.id) ++
            expRowsFrom p.id now s.next_exp_id data.experiences) ∧
      (save_profile noFailE noFailD now s data track).1.educations =
        (if data.educations = [] then s.educations else
          s.educations.filter (fun e => e.person_id ≠ p.id) ++
            eduRowsFrom p.id now s.next_edu_id data.educations) ∧
      (save_profile noFailE noFailD now s data track).1.next_person_id =
        s.next_person_id := by
  have hcore : saveProfileCore noFailE noFailD now s data track =
      updateProfile noFailE noFailD now s p data track := by
    simp [saveProfileCore, hurl, hfind]
  cases track <;>
  by_cases hch : (scalarMerge p now data).2 = [] <;>
  by_cases he : data.experiences = [] <;>
  by_cases hd : data.educations = [] <;>
    simp [save_profile, hcore, updateProfile, he, hd, hch, addHistory_eq,
      insertExperiences_noFail, insertEducations_noFail, except_ok_bind]

/-- Normal form of a successful create-path `save_profile` call with no
store-level failures: one new Person row (first = last = now, count 1,
active) is appended, all child rows from the record are inserted, and no
History row is written. -/
theorem save_create_spec (now : Nat) (s : Store) (data : PersonData)
    (track : Bool)
    (hurl : truthy data.linkedin_url = true)
    (hfind : s.persons.find? (fun q => q.linkedin_url = data.linkedin_url.getD "") = none) :
    (save_profile noFailE noFailD now s data track).2 =
        Except.ok (newPersonRow s.next_person_id now data (data.linkedin_url.getD "")) ∧
      (save_profile noFailE noFailD now s data track).1.persons =
        s.persons ++ [newPersonRow s.next_person_id now data (data.linkedin_url.getD "")] ∧
      (save_profile noFailE noFailD now s data track).1.history = s.history ∧
      (save_profile noFailE noFailD now s data track).1.experiences =
        s.experiences ++ expRowsFrom s.next_person_id now s.next_exp_id data.experiences ∧
      (save_profile noFailE noFailD now s data track).1.educations =
        s.educations ++ eduRowsFrom s.next_person_id now s.next_edu_id data.educations ∧
      (save_profile noFailE noFailD now s data track).1.next_person_id =
        s.next_person_id + 1 := by
  have hcore : saveProfileCore noFailE noFailD now s data track =
      createProfile noFailE noFailD now s data (data.linkedin_url.getD "") := by
    simp [saveProfileCore, hurl, hfind]
  by_cases he : data.experiences = [] <;>
  by_cases hd : data.educations = [] <;>
    simp [save_profile, hcore, createProfile, he, hd, newPersonRow,
      insertExperiences_noFail, insertEducations_noFail, expRowsFrom, eduRowsFrom,
      except_ok_bind]

theorem applyField_not_truthy (st inc : Option String) (h : truthy inc = false) :
    applyField st inc = (st, none) := by
  cases inc with
  | none => rfl
  | some v =>
    simp only [truthy, Bool.not_eq_false', beq_iff_eq] at h
    simp [applyField, h]

theorem applyField_eq_stored (st : Option String) (v : String) (h : st = some v) :
    applyField st (some v) = (st, none) := by
  by_cases hv : v = "" <;> simp [applyField, hv, h]

theorem applyField_change (st : Option String) (v : String) (hv : v ≠ "")
    (hne : st ≠ some v) : applyField st (some v) = (some v, some (st, v)) := by
  simp [applyField, hv, hne]

theorem insertExperiences_ok (fE : ExpData → Bool) (pid now : Nat)
    (l : List ExpData) : ∀ s s' : Store,
    insertExperiences fE pid now s l = Except.ok s' →
      s' = { s with experiences := s.experiences ++ expRowsFrom pid now s.next_exp_id l,
                    next_exp_id := s.next_exp_id + l.length } := by
  induction l with
  | nil =>
    intro s s' h
    simp only [insertExperiences, Except.ok.injEq] at h
    simp [← h, expRowsFrom]
  | cons e rest ih =>
    intro s s' h
    simp only [insertExperiences] at h
    by_cases hf : fE e
    · simp [hf] at h
    · simp only [hf, Bool.false_eq_true, if_false] at h
      have := ih _ _ h
      rw [this]
      simp only [expRowsFrom, List.length_cons]
      congr 1
      simp [List.append_assoc]
      omega

theorem insertEducations_ok (fD : EduData → Bool) (pid now : Nat)
    (l : List EduData) : ∀ s s' : Store,
    insertEducations fD pid now s l = Except.ok s' →
      s' = { s with educations := s.educations ++ eduRowsFrom pid now s.next_edu_id l,
                    next_edu_id := s.next_edu_id + l.length } := by
  induction l with
  | nil =>
    intro s s' h
    simp only [insertEducations, Except.ok.injEq] at h
    simp [← h, eduRowsFrom]
  | cons e rest ih =>
    intro s s' h
    simp only [insertEducations] at h
    by_cases hf : fD e
    · simp [hf] at h
    · simp only [hf, Bool.false_eq_true, if_false] at h
      have := ih _ _ h
      rw [this]
      simp only [eduRowsFrom, List.length_cons]
      congr 1
      simp [List.append_assoc]
      omega

theorem insertExperiences_ok_eq (fE : ExpData → Bool) (pid now : Nat)
    (l : List ExpData) (s s' : Store)
    (h : insertExperiences fE pid now s l = Except.ok s') :
    insertExperiences noFailE pid now s l = Except.ok s' := by
  rw [insertExperiences_noFail]
  exact congrArg Except.ok (insertExperiences_ok fE pid now l s s' h).symm

theorem insertEducations_ok_eq (fD : EduData → Bool) (pid now : Nat)
    (l : List EduData) (s s' : Store)
    (h : insertEducations fD pid now s l = Except.ok s') :
    insertEducations noFailD pid now s l = Except.ok s' := by
  rw [insertEducations_noFail]
  exact congrArg Except.ok (insertEducations_ok fD pid now l s s' h).symm

/-- A successful create path with arbitrary failure oracles coincides with
the failure-free run. -/
theorem createProfile_ok_eq (fE : ExpData → Bool) (fD : EduData → Bool)
    (now : Nat) (s : Store) (data : PersonData) (url : String)
    (v : Store × PersonRow)
    (h : createProfile fE fD now s data url = Except.ok v) :
    createProfile noFailE noFailD now s data url = Except.ok v := by
  unfold createProfile at h ⊢
  dsimp only at h ⊢
  obtain ⟨s2, h2, h3⟩ := except_bind_ok_inv _ _ _ h
  obtain ⟨s3, h4, h5⟩ := except_bind_ok_inv _ _ _ h3
  by_cases he : data.experiences = []
  · rw [if_pos he] at h2 ⊢
    injection h2 with h2e
    subst h2e
    simp only [except_ok_bind]
    by_cases hd : data.educations = []
    · rw [if_pos hd] at h4 ⊢
      injection h4 with h4e
      subst h4e
      simp only [except_ok_bind]
      exact h5
    · rw [if_neg hd] at h4 ⊢
      rw [insertEducations_ok_eq _ _ _ _ _ _ h4]
      simp only [except_ok_bind]
      exact h5
  · rw [if_neg he] at h2 ⊢
    rw [insertExperiences_ok_eq _ _ _ _ _ _ h2]
    simp only [except_ok_bind]
    by_cases hd : data.educations = []
    · rw [if_pos hd] at h4 ⊢
      injection h4 with h4e
      subst h4e
      simp only [except_ok_bind]
      exact h5
    · rw [if_neg hd] at h4 ⊢
      rw [insertEducations_ok_eq _ _ _ _ _ _ h4]
      simp only [except_ok_bind]
      exact h5

/-- A successful update path with arbitrary failure oracles coincides with
the failure-free run. -/
theorem updateProfile_ok_eq (fE : ExpData → Bool) (fD : EduData → Bool)
    (now : Nat) (s : Store) (p : PersonRow) (data : PersonData) (track : Bool)
    (v : Store × PersonRow)
    (h : updateProfile fE fD now s p data track = Except.ok v) :
    updateProfile noFailE noFailD now s p data track = Except.ok v := by
  unfold updateProfile at h ⊢
  dsimp only at h ⊢
  obtain ⟨s3, h2, h3⟩ := except_bind_ok_inv _ _ _ h
  obtain ⟨s4, h4, h5⟩ := except_bind_ok_inv _ _ _ h3
  by_cases he : data.experiences = []
  · rw [if_pos he] at h2 ⊢
    injection h2 with h2e
    subst h2e
    simp only [except_ok_bind]
    by_cases hd : data.educations = []
    · rw [if_pos hd] at h4 ⊢
      injection h4 with h4e
      subst h4e
      simp only [except_ok_bind]
      exact h5
    · rw [if_neg hd] at h4 ⊢
      rw [insertEducations_ok_eq _ _ _ _ _ _ h4]
      simp only [except_ok_bind]
      exact h5
  · rw [if_neg he] at h2 ⊢
    rw [insertExperiences_ok_eq _ _ _ _ _ _ h2]
    simp only [except_ok_bind]
    by_cases hd : data.educations = []
    · rw [if_pos hd] at h4 ⊢
      injection h4 with h4e
      subst h4e
      simp only [except_ok_bind]
      exact h5
    · rw [if_neg hd] at h4 ⊢
      rw [insertEducations_ok_eq _ _ _ _ _ _ h4]
      simp only [except_ok_bind]
      exact h5

/-- A successful `save_profile` call with arbitrary failure oracles
coincides with the failure-free run. -/
theorem save_profile_ok_eq (fE : ExpData → Bool) (fD : EduData → Bool)
    (now : Nat) (s : Store) (data : PersonData) (track : Bool) (p' : PersonRow)
    (h : (save_profile fE fD now s data track).2 = Except.ok p') :
    save_profile fE fD now s data track =
      save_profile noFailE noFailD now s data track := by
  unfold save_profile at h ⊢
  cases hc : saveProfileCore fE fD now s data track with
  | error e => rw [hc] at h; simp at h
  | ok v =>
    have hc' : saveProfileCore noFailE noFailD now s data track = Except.ok v := by
      unfold saveProfileCore at hc ⊢
      by_cases hurl : truthy data.linkedin_url
      · simp only [hurl, not_true_eq_false, Bool.true_eq_false, if_false] at hc ⊢
        cases hfind : s.persons.find?
            (fun q => q.linkedin_url = data.linkedin_url.getD "") with
        | some p =>
          rw [hfind] at hc
          exact updateProfile_ok_eq _ _ _ _ _ _ _ _ hc
        | none =>
          rw [hfind] at hc
          exact createProfile_ok_eq _ _ _ _ _ _ _ hc
      · simp [hurl] at hc
    rw [hc']

/-- On any error, the post-call store is the pre-call store (rollback). -/
theorem save_profile_error (fE : ExpData → Bool) (fD : EduData → Bool)
    (now : Nat) (s : Store) (data : PersonData) (track : Bool) (e : SaveError)
    (h : (save_profile fE fD now s data track).2 = Except.error e) :
    (save_profile fE fD now s data track).1 = s := by
  unfold save_profile at h ⊢
  cases hc : saveProfileCore fE fD now s data track with
  | error e2 => rfl
  | ok v => rw [hc] at h; simp at h

theorem scalarMerge_id (p : PersonRow) (now : Nat) (data : PersonData) :
    (scalarMerge p now data).1.id = p.id := rfl

theorem scalarMerge_url (p : PersonRow) (now : Nat) (data : PersonData) :
    (scalarMerge p now data).1.linkedin_url = p.linkedin_url := rfl

theorem truthy_getD (o : Option String) : truthy o = true ↔ o.getD "" ≠ "" := by
  cases o with
  | none => simp [truthy]
  | some u => simp [truthy]

/-- In a list with pairwise-distinct ids, two members with the same id are
the same row. -/
theorem mem_id_eq {l : List PersonRow} (hpw : l.Pairwise (fun a b => a.id ≠ b.id))
    {x y : PersonRow} (hx : x ∈ l) (hy : y ∈ l) (h : x.id = y.id) : x = y := by
  induction l with
  | nil => cases hx
  | cons a t ih =>
    rw [List.pairwise_cons] at hpw
    rcases List.mem_cons.mp hx with rfl | hx2
    · rcases List.mem_cons.mp hy with rfl | hy2
      · rfl
      · exact absurd h (hpw.1 _ hy2)
    · rcases List.mem_cons.mp hy with rfl | hy2
      · exact absurd h.symm (hpw.1 _ hx2)
      · exact ih hpw.2 hx2 hy2

/-- `save_profile` preserves the Person-table invariant, whatever the
failure oracles do. -/
theorem save_preserves_personsInv (fE : ExpData → Bool) (fD : EduData → Bool)
    (now : Nat) (s : Store) (data : PersonData) (track : Bool)
    (hinv : PersonsInv s) :
    PersonsInv (save_profile fE fD now s data track).1 := by
  obtain ⟨hpw_url, hne, hpw_id, hlt⟩ := hinv
  cases hres : (save_profile fE fD now s data track).2 with
  | error e =>
    rw [save_profile_error _ _ _ _ _ _ _ hres]
    exact ⟨hpw_url, hne, hpw_id, hlt⟩
  | ok p' =>
    rw [save_profile_ok_eq _ _ _ _ _ _ _ hres]
    by_cases hurl : truthy data.linkedin_url
    · cases hfind : s.persons.find?
          (fun q => q.linkedin_url = data.linkedin_url.getD "") with
      | some p =>
        obtain ⟨-, hpers, -, -, -, hnp⟩ := save_update_spec now s data track p hurl hfind
        have hpmem : p ∈ s.persons := List.mem_of_find?_eq_some hfind
        have hid : ∀ q : PersonRow,
            ((fun q => if q.id = p.id then (scalarMerge p now data).1 else q) q).id = q.id := by
          intro q
          by_cases hq : q.id = p.id <;> simp [hq, scalarMerge_id]
        have hurlq : ∀ q ∈ s.persons,
            ((fun q => if q.id = p.id then (scalarMerge p now data).1 else q) q).linkedin_url =
              q.linkedin_url := by
          intro q hq
          by_cases hqp : q.id = p.id
          · have : q = p := mem_id_eq hpw_id hq hpmem hqp
            subst this
            simp [hqp, scalarMerge_url]
          · simp [hqp]
        refine ⟨?_, ?_, ?_, ?_⟩
        · rw [hpers, List.pairwise_map]
          refine hpw_url.imp_of_mem ?_
          intro a b ha hb hab
          rw [hurlq a ha, hurlq b hb]
          exact hab
        · rw [hpers]
          intro q hq
          obtain ⟨a, ha, rfl⟩ := List.mem_map.mp hq
          rw [hurlq a ha]
          exact hne a ha
        · rw [hpers, List.pairwise_map]
          refine hpw_id.imp_of_mem ?_
          intro a b _ _ hab
          rw [hid a, hid b]
          exact hab
        · rw [hpers, hnp]
          intro q hq
          obtain ⟨a, ha, rfl⟩ := List.mem_map.mp hq
          rw [hid a]
          exact hlt a ha
      | none =>
        obtain ⟨-, hpers, -, -, -, hnp⟩ := save_create_spec now s data track hurl hfind
        have hnotin : ∀ q ∈ s.persons, ¬ q.linkedin_url = data.linkedin_url.getD "" := by
          intro q hq
          have := List.find?_eq_none.mp hfind q hq
          simpa using this
        have hurl0 : data.linkedin_url.getD "" ≠ "" := (truthy_getD _).mp hurl
        refine ⟨?_, ?_, ?_, ?_⟩
        · rw [hpers, List.pairwise_append]
          refine ⟨hpw_url, List.pairwise_singleton _ _, ?_⟩
          intro a ha b hb
          simp only [List.mem_singleton] at hb
          subst hb
          simpa [newPersonRow] using hnotin a ha
        · rw [hpers]
          intro q hq
          rcases List.mem_append.mp hq with hq2 | hq2
          · exact hne q hq2
          · simp only [List.mem_singleton] at hq2
            subst hq2
            simpa [newPersonRow] using hurl0
        · rw [hpers, List.pairwise_append]
          refine ⟨hpw_id, List.pairwise_singleton _ _, ?_⟩
          intro a ha b hb
          simp only [List.mem_singleton] at hb
          subst hb
          have := hlt a ha
          simp only [newPersonRow]
          omega
        · rw [hpers, hnp]
          intro q hq
          rcases List.mem_append.mp hq with hq2 | hq2
          · have := hlt q hq2
            omega
          · simp only [List.mem_singleton] at hq2
            subst hq2
            simp only [newPersonRow]
            omega
    · have heq : save_profile noFailE noFailD now s data track =
          (s, Except.error SaveError.validationError) := by
        unfold save_profile saveProfileCore
        simp [hurl]
      rw [heq]
      exact ⟨hpw_url, hne, hpw_id, hlt⟩

theorem countP_le_one_of_pairwise {l : List PersonRow}
    (h : l.Pairwise (fun a b => a.linkedin_url ≠ b.linkedin_url)) (u : String) :
    l.countP (fun q => q.linkedin_url = u) ≤ 1 := by
  induction l with
  | nil => simp
  | cons a t ih =>
    rw [List.pairwise_cons] at h
    rw [List.countP_cons]
    by_cases ha : a.linkedin_url = u
    · have hz : t.countP (fun q => q.linkedin_url = u) = 0 := by
        rw [List.countP_eq_zero]
        intro b hb
        simp only [decide_eq_true_eq]
        intro hbu
        exact h.1 b hb (by rw [ha, hbu])
      simp [ha, hz]
    · simp only [ha, decide_False, if_false, decide_eq_true_eq]
      simpa using ih h.2

/-- C1.  Uniqueness / deduplication invariant: starting from a store
satisfying the Person-table invariant, any `save_profile` call (with any
failure behaviour) preserves it, so at most one Person row exists per
`linkedin_url` in every reachable state; and when the record's
`linkedin_url` is already present, the call never adds a row — it resolves
to an in-place update of the existing row (same primary key). -/
theorem C1_dedup_uniqueness (fE : ExpData → Bool) (fD : EduData → Bool)
    (now : Nat) (s : Store) (data : PersonData) (track : Bool)
    (hinv : PersonsInv s) :
    PersonsInv (save_profile fE fD now s data track).1 ∧
      (∀ u : String, ((save_profile fE fD now s data track).1.persons.countP
        (fun q => q.linkedin_url = u)) ≤ 1) ∧
      ((∃ p ∈ s.persons, data.linkedin_url = some p.linkedin_url) →
        (save_profile fE fD now s data track).1.persons.length = s.persons.length ∧
        ∀ q ∈ (save_profile fE fD now s data track).1.persons,
          q.linkedin_url = data.linkedin_url.getD "" →
            ∃ p ∈ s.persons, p.linkedin_url = data.linkedin_url.getD "" ∧ q.id = p.id) := by
  have hinv2 := save_preserves_personsInv fE fD now s data track hinv
  refine ⟨hinv2, fun u => countP_le_one_of_pairwise hinv2.1 u, ?_⟩
  rintro ⟨p0, hp0, hdata⟩
  obtain ⟨hpw_url, hne, hpw_id, hlt⟩ := hinv
  cases hres : (save_profile fE fD now s data track).2 with
  | error e =>
    rw [save_profile_error _ _ _ _ _ _ _ hres]
    exact ⟨rfl, fun q hq hqu => ⟨q, hq, hqu, rfl⟩⟩
  | ok p' =>
    rw [save_profile_ok_eq _ _ _ _ _ _ _ hres] at *
    have hurl : truthy data.linkedin_url = true := by
      by_contra hurl
      have heq : save_profile noFailE noFailD now s data track =
          (s, Except.error SaveError.validationError) := by
        unfold save_profile saveProfileCore
        simp [hurl]
      rw [heq] at hres
      exact absurd hres (by simp)
    have hfindsome : (s.persons.find?
        (fun q => q.linkedin_url = data.linkedin_url.getD "")).isSome := by
      rw [List.find?_isSome]
      exact ⟨p0, hp0, by simp [hdata]⟩
    obtain ⟨p, hfind⟩ := Option.isSome_iff_exists.mp hfindsome
    obtain ⟨-, hpers, -, -, -, hnp⟩ := save_update_spec now s data track p hurl hfind
    have hpmem : p ∈ s.persons := List.mem_of_find?_eq_some hfind
    have hurlq : ∀ q ∈ s.persons,
        ((fun q => if q.id = p.id then (scalarMerge p now data).1 else q) q).linkedin_url =
          q.linkedin_url := by
      intro q hq
      by_cases hqp : q.id = p.id
      · have : q = p := mem_id_eq hpw_id hq hpmem hqp
        subst this
        simp [hqp, scalarMerge_url]
      · simp [hqp]
    have hid : ∀ q : PersonRow,
        ((fun q => if q.id = p.id then (scalarMerge p now data).1 else q) q).id = q.id := by
      intro q
      by_cases hq : q.id = p.id <;> simp [hq, scalarMerge_id]
    refine ⟨by rw [hpers]; simp, ?_⟩
    intro q hq hqu
    rw [hpers] at hq
    obtain ⟨a, ha, rfl⟩ := List.mem_map.mp hq
    refine ⟨a, ha, ?_, hid a⟩
    rw [← hurlq a ha]
    exact hqu

/-- Example incoming experience item used in concrete witnesses. -/
def exExp : ExpData :=
  { position_title := some "Engineer", institution_name := some "Acme",
    location := some "NYC", from_date := some "2020", to_date := some "2022",
    duration := some "2 yrs", description := some "backend" }

/-- Example incoming education item used in concrete witnesses. -/
def exEdu : EduData :=
  { institution_name := some "MIT", degree := some "BSc",
    from_date := some "2014", to_date := some "2018", description := none }

/-- Example ingest record used in concrete witnesses. -/
def exRecord : PersonData :=
  { linkedin_url := some "https://linkedin.com/in/u1", name := some "Alice",
    location := some "NYC", job_title := some "Engineer", company := some "Acme",
    about := some "hi", experiences := [exExp], educations := [exEdu] }

/-- Witness for C1: the invariant hypothesis is discharged on a concrete
store (the result of one save on the empty store) and record. -/
theorem C1_dedup_uniqueness_witness :
    PersonsInv (save_profile noFailE noFailD 0 Store.empty exRecord true).1 ∧
      (∀ u : String,
        (((save_profile noFailE noFailD 1
            (save_profile noFailE noFailD 0 Store.empty exRecord true).1
            exRecord true).1.persons.countP (fun q => q.linkedin_url = u)) ≤ 1)) := by
  have h0 : PersonsInv Store.empty := by
    refine ⟨List.Pairwise.nil, ?_, List.Pairwise.nil, ?_⟩ <;> intro p hp <;> cases hp
  have h1 := save_preserves_personsInv noFailE noFailD 0 Store.empty exRecord true h0
  exact ⟨h1, (C1_dedup_uniqueness noFailE noFailD 1
    (save_profile noFailE noFailD 0 Store.empty exRecord true).1 exRecord true h1).2.1⟩

/-- C5.  Atomicity under failure: whenever `save_profile` raises — e.g. a
store-level constraint violation during child insertion mid-update — the
whole unit of work is rolled back: the post-call store is exactly the
pre-call store (no scalar overwrite, touch increment, or child change
survives) and the error is re-raised to the caller. -/
theorem C5_atomicity (fE : ExpData → Bool) (fD : EduData → Bool) (now : Nat)
    (s : Store) (data : PersonData) (track : Bool) (e : SaveError)
    (h : (save_profile fE fD now s data track).2 = Except.error e) :
    save_profile fE fD now s data track = (s, Except.error e) := by
  have h1 := save_profile_error fE fD now s data track e h
  exact Prod.ext h1 h

/-- The store after one successful save of `exRecord` on the empty store,
used as the pre-call state in concrete witnesses. -/
def exStore1 : Store := (save_profile noFailE noFailD 0 Store.empty exRecord true).1

/-- A re-scrape of `exRecord` with a changed company, used in witnesses. -/
def exRecord2 : PersonData := { exRecord with company := some "Globex" }

/-- Witness for C5: a constraint violation during experience insertion in
the middle of an update (after the scalar overwrite was staged) leaves the
store byte-identical to the pre-call state and re-raises the error. -/
theorem C5_atomicity_witness :
    (save_profile (fun _ => true) noFailD 1 exStore1 exRecord2 true).2 =
        Except.error SaveError.storeError ∧
      save_profile (fun _ => true) noFailD 1 exStore1 exRecord2 true =
        (exStore1, Except.error SaveError.storeError) :=
  ⟨rfl, C5_atomicity (fun _ => true) noFailD 1 exStore1 exRecord2 true
    SaveError.storeError rfl⟩

/-- The record with an empty external identifier, used to exercise the
validation failure. -/
def exBadRecord : PersonData := { exRecord with linkedin_url := some "" }

/-- C6 counterexample.  The claim says a record with a missing/empty
`linkedin_url` fails "before opening any unit of work"; in the code
`session = self.db.get_session()` runs first and the `ValueError` is raised
inside the `try`, so the session-lifecycle trace of the failing call starts
with the session being opened, followed by rollback and close. -/
theorem C6_counterexample :
    (save_profile noFailE noFailD 0 Store.empty exBadRecord true).2 =
        Except.error SaveError.validationError ∧
      save_profile_events noFailE noFailD 0 Store.empty exBadRecord true =
        [SessionEvent.sessionOpen, SessionEvent.rollback, SessionEvent.sessionClose] := by
  exact ⟨rfl, rfl⟩

/-- C6 amended.  For every record whose external identifier is missing or
empty, `save_profile` fails with the validation error and performs no
write — the store is unchanged — though the session is opened before the
validation check and is then rolled back and closed (no commit occurs). -/
theorem C6_validation_before_write (fE : ExpData → Bool) (fD : EduData → Bool)
    (now : Nat) (s : Store) (data : PersonData) (track : Bool)
    (h : truthy data.linkedin_url = false) :
    save_profile fE fD now s data track =
        (s, Except.error SaveError.validationError) ∧
      save_profile_events fE fD now s data track =
        [SessionEvent.sessionOpen, SessionEvent.rollback, SessionEvent.sessionClose] := by
  have hcore : saveProfileCore fE fD now s data track =
      Except.error SaveError.validationError := by
    simp [saveProfileCore, h]
  constructor
  · unfold save_profile
    rw [hcore]
  · unfold save_profile_events
    rw [hcore]
    rfl

/-- Witness for C6 amended, at the concrete empty-identifier record. -/
theorem C6_validation_before_write_witness :
    truthy exBadRecord.linkedin_url = false ∧
      save_profile noFailE noFailD 0 exStore1 exBadRecord true =
        (exStore1, Except.error SaveError.validationError) :=
  ⟨rfl, (C6_validation_before_write noFailE noFailD 0 exStore1 exBadRecord true rfl).1⟩

theorem scalarMerge_fields (p : PersonRow) (now : Nat) (data : PersonData) :
    (scalarMerge p now data).1 = { p with
      name := (applyField (some p.name) data.name).1.getD p.name,
      location := (applyField p.location data.location).1,
      current_job_title := (applyField p.current_job_title data.job_title).1,
      current_company := (applyField p.current_company data.company).1,
      about := (applyField p.about data.about).1,
      last_scraped_at := now, scrape_count := p.scrape_count + 1 } := rfl

theorem scalarMerge_changes (p : PersonRow) (now : Nat) (data : PersonData) :
    (scalarMerge p now data).2 =
      tagChange "name" (applyField (some p.name) data.name).2 ++
      tagChange "location" (applyField p.location data.location).2 ++
      tagChange "current_job_title" (applyField p.current_job_title data.job_title).2 ++
      tagChange "current_company" (applyField p.current_company data.company).2 ++
      tagChange "about" (applyField p.about data.about).2 := rfl

theorem mem_tagChange {f : String} {x : Option (Option String × String)}
    {c : String × Option String × String} (h : c ∈ tagChange f x) : c.1 = f := by
  cases x with
  | none => cases h
  | some v =>
    simp only [tagChange, List.mem_singleton] at h
    rw [h]

theorem histRowsFrom_changed_field (pid now : Nat)
    (l : List (String × Option String × String)) : ∀ base h,
    h ∈ histRowsFrom pid now base l → ∃ c ∈ l, h.changed_field = c.1 := by
  induction l with
  | nil => intro base h hh; cases hh
  | cons c rest ih =>
    intro base h hh
    rcases List.mem_cons.mp hh with rfl | hh2
    · exact ⟨c, List.mem_cons_self _ _, rfl⟩
    · obtain ⟨c2, hc2, he⟩ := ih (base + 1) h hh2
      exact ⟨c2, List.mem_cons_of_mem _ hc2, he⟩

theorem scalarMerge_changes_cases (p : PersonRow) (now : Nat) (data : PersonData)
    (c : String × Option String × String) (hc : c ∈ (scalarMerge p now data).2) :
    c ∈ tagChange "name" (applyField (some p.name) data.name).2 ∨
    c ∈ tagChange "location" (applyField p.location data.location).2 ∨
    c ∈ tagChange "current_job_title" (applyField p.current_job_title data.job_title).2 ∨
    c ∈ tagChange "current_company" (applyField p.current_company data.company).2 ∨
    c ∈ tagChange "about" (applyField p.about data.about).2 := by
  rw [scalarMerge_changes] at hc
  simp only [List.mem_append] at hc
  tauto

/-- The new history rows appended by an update-path save, as a drop past the
prior table. -/
theorem save_update_new_history (now : Nat) (s : Store) (data : PersonData)
    (track : Bool) (p : PersonRow)
    (hurl : truthy data.linkedin_url = true)
    (hfind : s.persons.find? (fun q => q.linkedin_url = data.linkedin_url.getD "") = some p) :
    (save_profile noFailE noFailD now s data track).1.history.drop s.history.length =
      (if track ∧ (scalarMerge p now data).2 ≠ [] then
        histRowsFrom p.id now s.next_hist_id (scalarMerge p now data).2 else []) := by
  obtain ⟨-, -, hh, -, -, -⟩ := save_update_spec now s data track p hurl hfind
  rw [hh, List.drop_left]

/-- C3.  Additive-only scalar merge: on the update path, an absent or empty
incoming value for any of the five scalar fields never overwrites the stored
value, and no History row is recorded for that field — in particular a
stored company survives an incoming empty company. -/
theorem C3_additive_only (now : Nat) (s : Store) (data : PersonData)
    (track : Bool) (p : PersonRow)
    (hurl : truthy data.linkedin_url = true)
    (hfind : s.persons.find? (fun q => q.linkedin_url = data.linkedin_url.getD "") = some p) :
    ∃ p', (save_profile noFailE noFailD now s data track).2 = Except.ok p' ∧
      (truthy data.name = false → p'.name = p.name) ∧
      (truthy data.location = false → p'.location = p.location) ∧
      (truthy data.job_title = false → p'.current_job_title = p.current_job_title) ∧
      (truthy data.company = false → p'.current_company = p.current_company) ∧
      (truthy data.about = false → p'.about = p.about) ∧
      (∀ h ∈ (save_profile noFailE noFailD now s data track).1.history.drop s.history.length,
        (truthy data.name = false → h.changed_field ≠ "name") ∧
        (truthy data.location = false → h.changed_field ≠ "location") ∧
        (truthy data.job_title = false → h.changed_field ≠ "current_job_title") ∧
        (truthy data.company = false → h.changed_field ≠ "current_company") ∧
        (truthy data.about = false → h.changed_field ≠ "about")) := by
  obtain ⟨hok, -, -, -, -, -⟩ := save_update_spec now s data track p hurl hfind
  refine ⟨(scalarMerge p now data).1, hok, ?_, ?_, ?_, ?_, ?_, ?_⟩
  · intro h
    rw [scalarMerge_fields]
    simp [applyField_not_truthy _ _ h]
  · intro h
    rw [scalarMerge_fields]
    simp [applyField_not_truthy _ _ h]
  · intro h
    rw [scalarMerge_fields]
    simp [applyField_not_truthy _ _ h]
  · intro h
    rw [scalarMerge_fields]
    simp [applyField_not_truthy _ _ h]
  · intro h
    rw [scalarMerge_fields]
    simp [applyField_not_truthy _ _ h]
  · intro h hmem
    rw [save_update_new_history now s data track p hurl hfind] at hmem
    by_cases hcond : track ∧ (scalarMerge p now data).2 ≠ []
    on_goal 2 => simp [hcond] at hmem
    rw [if_pos hcond] at hmem
    obtain ⟨c, hc, hfield⟩ := histRowsFrom_changed_field _ _ _ _ _ hmem
    have hcases := scalarMerge_changes_cases p now data c hc
    refine ⟨?_, ?_, ?_, ?_, ?_⟩ <;> intro hfalse <;> rw [hfield] <;>
      rcases hcases with h5 | h5 | h5 | h5 | h5 <;>
      first
        | (rw [applyField_not_truthy _ _ hfalse] at h5; cases h5)
        | (rw [mem_tagChange h5]; decide)

/-- A re-scrape of `exRecord` carrying an empty company, used in witnesses. -/
def exRecord3 : PersonData := { exRecord with company := some "" }

/-- Witness for C3: with organization stored as "Acme", saving a record with
an empty company leaves "Acme" in place. -/
theorem C3_additive_only_witness :
    truthy exRecord3.company = false ∧
      (∃ p', (save_profile noFailE noFailD 1 exStore1 exRecord3 true).2 = Except.ok p' ∧
        p'.current_company = some "Acme") := by
  have h := C3_additive_only 1 exStore1 exRecord3 true
    (newPersonRow 0 0 exRecord "https://linkedin.com/in/u1") rfl rfl
  obtain ⟨p', h1, -, -, -, h5, -, -⟩ := h
  exact ⟨rfl, ⟨p', h1, by rw [h5 rfl]; rfl⟩⟩

theorem applyField_fst (st inc : Option String) :
    (applyField st inc).1 = if truthy inc = true ∧ st ≠ inc then inc else st := by
  cases inc with
  | none => simp [applyField, truthy]
  | some v =>
    by_cases hv : v = ""
    · simp [applyField, hv, truthy]
    · by_cases hst : st = some v <;> simp [applyField, hv, hst, truthy]

theorem tagChange_applyField_map (f : String) (st inc : Option String) :
    (tagChange f (applyField st inc).2).map
        (fun c => (strOrNone c.2.1, if c.2.2 = "" then none else some c.2.2)) =
      (if truthy inc = true ∧ st ≠ inc then [(strOrNone st, inc)] else []) := by
  cases inc with
  | none => simp [applyField, tagChange, truthy]
  | some v =>
    by_cases hv : v = ""
    · simp [applyField, hv, tagChange, truthy]
    · by_cases hst : st = some v <;> simp [applyField, hv, hst, tagChange, truthy]

theorem filter_tagChange_ne {g f : String} (hne : g ≠ f)
    (x : Option (Option String × String)) :
    (tagChange g x).filter (fun c => c.1 = f) = [] := by
  cases x <;> simp [tagChange, hne]

theorem filter_tagChange_self (f : String) (x : Option (Option String × String)) :
    (tagChange f x).filter (fun c => c.1 = f) = tagChange f x := by
  cases x <;> simp [tagChange]

theorem histRowsFrom_filter (pid now : Nat) (f : String)
    (l : List (String × Option String × String)) : ∀ base,
    ((histRowsFrom pid now base l).filter (fun h => h.changed_field = f)).map
        (fun h => (h.old_value, h.new_value)) =
      ((l.filter (fun c => c.1 = f)).map
        (fun c => (strOrNone c.2.1, if c.2.2 = "" then none else some c.2.2))) := by
  induction l with
  | nil => intro base; rfl
  | cons c rest ih =>
    intro base
    obtain ⟨g, old, new⟩ := c
    by_cases hg : g = f <;>
      simp [histRowsFrom, List.filter_cons, hg, ih (base + 1)]

theorem histRowsFrom_pid_time (pid now : Nat)
    (l : List (String × Option String × String)) : ∀ base h,
    h ∈ histRowsFrom pid now base l → h.person_id = pid ∧ h.changed_at = now := by
  induction l with
  | nil => intro base h hh; cases hh
  | cons c rest ih =>
    intro base h hh
    rcases List.mem_cons.mp hh with rfl | hh2
    · exact ⟨rfl, rfl⟩
    · exact ih (base + 1) h hh2

/-- On the update path with `track_changes = True`, the appended history is
exactly the rows of the recorded changes (empty iff no field changed). -/
theorem save_update_new_history_true (now : Nat) (s : Store) (data : PersonData)
    (p : PersonRow)
    (hurl : truthy data.linkedin_url = true)
    (hfind : s.persons.find? (fun q => q.linkedin_url = data.linkedin_url.getD "") = some p) :
    (save_profile noFailE noFailD now s data true).1.history.drop s.history.length =
      histRowsFrom p.id now s.next_hist_id (scalarMerge p now data).2 := by
  rw [save_update_new_history now s data true p hurl hfind]
  by_cases hch : (scalarMerge p now data).2 = []
  · simp [hch, histRowsFrom]
  · simp [hch]

/-- C4.  History-per-change: on the update path with `track_changes` set,
each scalar field whose incoming value is present (non-empty) and differs
from the stored value is overwritten and contributes exactly one new History
row carrying the field name, the old value as text-or-null, the new value,
the owning profile id and the current time; fields that do not change
contribute no row, and no rows besides the five scalar fields ever appear. -/
theorem C4_history_per_change (now : Nat) (s : Store) (data : PersonData)
    (p : PersonRow)
    (hurl : truthy data.linkedin_url = true)
    (hfind : s.persons.find? (fun q => q.linkedin_url = data.linkedin_url.getD "") = some p) :
    ∃ p', (save_profile noFailE noFailD now s data true).2 = Except.ok p' ∧
      (∀ h ∈ (save_profile noFailE noFailD now s data true).1.history.drop s.history.length,
        h.person_id = p.id ∧ h.changed_at = now ∧
          h.changed_field ∈ ["name", "location", "current_job_title",
            "current_company", "about"]) ∧
      (((save_profile noFailE noFailD now s data true).1.history.drop s.history.length).filter
          (fun h => h.changed_field = "name")).map (fun h => (h.old_value, h.new_value)) =
        (if truthy data.name = true ∧ some p.name ≠ data.name then
          [(strOrNone (some p.name), data.name)] else []) ∧
      some p'.name = (if truthy data.name = true ∧ some p.name ≠ data.name then
        data.name else some p.name) ∧
      (((save_profile noFailE noFailD now s data true).1.history.drop s.history.length).filter
          (fun h => h.changed_field = "location")).map (fun h => (h.old_value, h.new_value)) =
        (if truthy data.location = true ∧ p.location ≠ data.location then
          [(strOrNone p.location, data.location)] else []) ∧
      p'.location = (if truthy data.location = true ∧ p.location ≠ data.location then
        data.location else p.location) ∧
      (((save_profile noFailE noFailD now s data true).1.history.drop s.history.length).filter
          (fun h => h.changed_field = "current_job_title")).map
          (fun h => (h.old_value, h.new_value)) =
        (if truthy data.job_title = true ∧ p.current_job_title ≠ data.job_title then
          [(strOrNone p.current_job_title, data.job_title)] else []) ∧
      p'.current_job_title =
        (if truthy data.job_title = true ∧ p.current_job_title ≠ data.job_title then
          data.job_title else p.current_job_title) ∧
      (((save_profile noFailE noFailD now s data true).1.history.drop s.history.length).filter
          (fun h => h.changed_field = "current_company")).map
          (fun h => (h.old_value, h.new_value)) =
        (if truthy data.company = true ∧ p.current_company ≠ data.company then
          [(strOrNone p.current_company, data.company)] else []) ∧
      p'.current_company =
        (if truthy data.company = true ∧ p.current_company ≠ data.company then
          data.company else p.current_company) ∧
      (((save_profile noFailE noFailD now s data true).1.history.drop s.history.length).filter
          (fun h => h.changed_field = "about")).map (fun h => (h.old_value, h.new_value)) =
        (if truthy data.about = true ∧ p.about ≠ data.about then
          [(strOrNone p.about, data.about)] else []) ∧
      p'.about = (if truthy data.about = true ∧ p.about ≠ data.about then
        data.about else p.about) := by
  obtain ⟨hok, -, -, -, -, -⟩ := save_update_spec now s data true p hurl hfind
  have hnew := save_update_new_history_true now s data p hurl hfind
  have hcover : ∀ h ∈ (save_profile noFailE noFailD now s data true).1.history.drop
      s.history.length,
      h.person_id = p.id ∧ h.changed_at = now ∧
        h.changed_field ∈ ["name", "location", "current_job_title",
          "current_company", "about"] := by
    intro h hmem
    rw [hnew] at hmem
    obtain ⟨hpid, htime⟩ := histRowsFrom_pid_time _ _ _ _ _ hmem
    obtain ⟨c, hc, hfield⟩ := histRowsFrom_changed_field _ _ _ _ _ hmem
    refine ⟨hpid, htime, ?_⟩
    rcases scalarMerge_changes_cases p now data c hc with h5 | h5 | h5 | h5 | h5 <;>
      rw [hfield, mem_tagChange h5] <;> simp
  have hfilter : ∀ f : String,
      (((save_profile noFailE noFailD now s data true).1.history.drop
          s.history.length).filter (fun h => h.changed_field = f)).map
          (fun h => (h.old_value, h.new_value)) =
        (((scalarMerge p now data).2.filter (fun c => c.1 = f)).map
          (fun c => (strOrNone c.2.1, if c.2.2 = "" then none else some c.2.2))) := by
    intro f
    rw [hnew, histRowsFrom_filter]
  refine ⟨(scalarMerge p now data).1, hok, hcover, ?_, ?_, ?_, ?_, ?_, ?_, ?_, ?_, ?_, ?_⟩
  · rw [hfilter, scalarMerge_changes]
    rw [List.filter_append, List.filter_append, List.filter_append, List.filter_append,
      filter_tagChange_self, filter_tagChange_ne (by decide), filter_tagChange_ne (by decide),
      filter_tagChange_ne (by decide), filter_tagChange_ne (by decide)]
    simpa using tagChange_applyField_map "name" (some p.name) data.name
  · rw [scalarMerge_fields]
    simp only []
    rw [applyField_fst]
    by_cases hc : truthy data.name = true ∧ some p.name ≠ data.name
    · rw [if_pos hc]
      obtain ⟨h1, -⟩ := hc
      cases hd : data.name with
      | none => rw [hd] at h1; simp [truthy] at h1
      | some v => simp
    · rw [if_neg hc]
      simp
  · rw [hfilter, scalarMerge_changes]
    rw [List.filter_append, List.filter_append, List.filter_append, List.filter_append,
      filter_tagChange_ne (by decide), filter_tagChange_self, filter_tagChange_ne (by decide),
      filter_tagChange_ne (by decide), filter_tagChange_ne (by decide)]
    simpa using tagChange_applyField_map "location" p.location data.location
  · rw [scalarMerge_fields]
    simp only []
    rw [applyField_fst]
  · rw [hfilter, scalarMerge_changes]
    rw [List.filter_append, List.filter_append, List.filter_append, List.filter_append,
      filter_tagChange_ne (by decide), filter_tagChange_ne (by decide), filter_tagChange_self,
      filter_tagChange_ne (by decide), filter_tagChange_ne (by decide)]
    simpa using tagChange_applyField_map "current_job_title" p.current_job_title data.job_title
  · rw [scalarMerge_fields]
    simp only []
    rw [applyField_fst]
  · rw [hfilter, scalarMerge_changes]
    rw [List.filter_append, List.filter_append, List.filter_append, List.filter_append,
      filter_tagChange_ne (by decide), filter_tagChange_ne (by decide),
      filter_tagChange_ne (by decide), filter_tagChange_self, filter_tagChange_ne (by decide)]
    simpa using tagChange_applyField_map "current_company" p.current_company data.company
  · rw [scalarMerge_fields]
    simp only []
    rw [applyField_fst]
  · rw [hfilter, scalarMerge_changes]
    rw [List.filter_append, List.filter_append, List.filter_append, List.filter_append,
      filter_tagChange_ne (by decide), filter_tagChange_ne (by decide),
      filter_tagChange_ne (by decide), filter_tagChange_ne (by decide), filter_tagChange_self]
    simpa using tagChange_applyField_map "about" p.about data.about
  · rw [scalarMerge_fields]
    simp only []
    rw [applyField_fst]

/-- A re-scrape of `exRecord` with only the job title changed, used in
witnesses. -/
def exRecord4 : PersonData := { exRecord with job_title := some "Senior Engineer" }

/-- Witness for C4: changing only the title from "Engineer" to
"Senior Engineer" yields exactly the History row
(current_job_title, "Engineer", "Senior Engineer"). -/
theorem C4_history_per_change_witness :
    truthy exRecord4.linkedin_url = true ∧
      (((save_profile noFailE noFailD 1 exStore1 exRecord4 true).1.history.drop
          exStore1.history.length).filter
          (fun h => h.changed_field = "current_job_title")).map
          (fun h => (h.old_value, h.new_value)) =
        [(some "Engineer", some "Senior Engineer")] ∧
      (((save_profile noFailE noFailD 1 exStore1 exRecord4 true).1.history.drop
          exStore1.history.length).filter
          (fun h => h.changed_field = "current_company")).map
          (fun h => (h.old_value, h.new_value)) = [] := by
  have h := C4_history_per_change 1 exStore1 exRecord4
    (newPersonRow 0 0 exRecord "https://linkedin.com/in/u1") rfl rfl
  obtain ⟨p', -, -, -, -, -, -, h7, -, h9, -, -, -⟩ := h
  refine ⟨rfl, ?_, ?_⟩
  · rw [h7, if_pos (by decide)]
    rfl
  · rw [h9, if_neg (by decide)]

theorem expRowsFrom_filter_eq (pid now : Nat) (l : List ExpData) (base : Nat) :
    (expRowsFrom pid now base l).filter (fun e => e.person_id = pid) =
      expRowsFrom pid now base l := by
  rw [List.filter_eq_self]
  intro a ha
  simp [expRowsFrom_person_id pid now l base a ha]

theorem expRowsFrom_filter_ne (pid now : Nat) (l : List ExpData) (base : Nat) :
    (expRowsFrom pid now base l).filter (fun e => e.person_id ≠ pid) = [] := by
  rw [List.filter_eq_nil]
  intro a ha
  simp [expRowsFrom_person_id pid now l base a ha]

theorem eduRowsFrom_filter_eq (pid now : Nat) (l : List EduData) (base : Nat) :
    (eduRowsFrom pid now base l).filter (fun e => e.person_id = pid) =
      eduRowsFrom pid now base l := by
  rw [List.filter_eq_self]
  intro a ha
  simp [eduRowsFrom_person_id pid now l base a ha]

theorem eduRowsFrom_filter_ne (pid now : Nat) (l : List EduData) (base : Nat) :
    (eduRowsFrom pid now base l).filter (fun e => e.person_id ≠ pid) = [] := by
  rw [List.filter_eq_nil]
  intro a ha
  simp [eduRowsFrom_person_id pid now l base a ha]

theorem exp_filter_ne_then_eq (pid : Nat) (l : List ExperienceRow) :
    (l.filter (fun e => e.person_id ≠ pid)).filter (fun e => e.person_id = pid) = [] := by
  induction l with
  | nil => rfl
  | cons a t ih => by_cases h : a.person_id = pid <;> simp [List.filter_cons, h, ih]

theorem exp_filter_ne_idem (pid : Nat) (l : List ExperienceRow) :
    (l.filter (fun e => e.person_id ≠ pid)).filter (fun e => e.person_id ≠ pid) =
      l.filter (fun e => e.person_id ≠ pid) := by
  induction l with
  | nil => rfl
  | cons a t ih => by_cases h : a.person_id = pid <;> simp [List.filter_cons, h, ih]

theorem edu_filter_ne_then_eq (pid : Nat) (l : List EducationRow) :
    (l.filter (fun e => e.person_id ≠ pid)).filter (fun e => e.person_id = pid) = [] := by
  induction l with
  | nil => rfl
  | cons a t ih => by_cases h : a.person_id = pid <;> simp [List.filter_cons, h, ih]

theorem edu_filter_ne_idem (pid : Nat) (l : List EducationRow) :
    (l.filter (fun e => e.person_id ≠ pid)).filter (fun e => e.person_id ≠ pid) =
      l.filter (fun e => e.person_id ≠ pid) := by
  induction l with
  | nil => rfl
  | cons a t ih => by_cases h : a.person_id = pid <;> simp [List.filter_cons, h, ih]

/-- C2.  Child replace-all: on the update path, a non-empty incoming
experiences list deletes all of the profile's Experience rows and inserts
the incoming list verbatim — after the save, the profile's Experience rows
have exactly the incoming count and content, other profiles' rows are
untouched — and an empty incoming list leaves the Experience table
untouched; the same holds independently for educations. -/
theorem C2_child_replace_all (now : Nat) (s : Store) (data : PersonData)
    (track : Bool) (p : PersonRow)
    (hurl : truthy data.linkedin_url = true)
    (hfind : s.persons.find? (fun q => q.linkedin_url = data.linkedin_url.getD "") = some p) :
    (data.experiences ≠ [] →
      ((save_profile noFailE noFailD now s data track).1.experiences.filter
          (fun e => e.person_id = p.id)).map ExperienceRow.content =
        data.experiences.map ExpData.content ∧
      ((save_profile noFailE noFailD now s data track).1.experiences.filter
          (fun e => e.person_id = p.id)).length = data.experiences.length ∧
      (save_profile noFailE noFailD now s data track).1.experiences.filter
          (fun e => e.person_id ≠ p.id) =
        s.experiences.filter (fun e => e.person_id ≠ p.id)) ∧
    (data.experiences = [] →
      (save_profile noFailE noFailD now s data track).1.experiences = s.experiences) ∧
    (data.educations ≠ [] →
      ((save_profile noFailE noFailD now s data track).1.educations.filter
          (fun e => e.person_id = p.id)).map EducationRow.content =
        data.educations.map EduData.content ∧
      ((save_profile noFailE noFailD now s data track).1.educations.filter
          (fun e => e.person_id = p.id)).length = data.educations.length ∧
      (save_profile noFailE noFailD now s data track).1.educations.filter
          (fun e => e.person_id ≠ p.id) =
        s.educations.filter (fun e => e.person_id ≠ p.id)) ∧
    (data.educations = [] →
      (save_profile noFailE noFailD now s data track).1.educations = s.educations) := by
  obtain ⟨-, -, -, hexp, hedu, -⟩ := save_update_spec now s data track p hurl hfind
  refine ⟨?_, ?_, ?_, ?_⟩
  · intro hne
    rw [hexp, if_neg hne]
    have hmap : ((s.experiences.filter (fun e => e.person_id ≠ p.id) ++
        expRowsFrom p.id now s.next_exp_id data.experiences).filter
          (fun e => e.person_id = p.id)).map ExperienceRow.content =
        data.experiences.map ExpData.content := by
      rw [List.filter_append, exp_filter_ne_then_eq, expRowsFrom_filter_eq,
        List.nil_append, expRowsFrom_content]
    refine ⟨hmap, ?_, ?_⟩
    · have := congrArg List.length hmap
      simpa using this
    · rw [List.filter_append, exp_filter_ne_idem, expRowsFrom_filter_ne,
        List.append_nil]
  · intro he
    rw [hexp, if_pos he]
  · intro hne
    rw [hedu, if_neg hne]
    have hmap : ((s.educations.filter (fun e => e.person_id ≠ p.id) ++
        eduRowsFrom p.id now s.next_edu_id data.educations).filter
          (fun e => e.person_id = p.id)).map EducationRow.content =
        data.educations.map EduData.content := by
      rw [List.filter_append, edu_filter_ne_then_eq, eduRowsFrom_filter_eq,
        List.nil_append, eduRowsFrom_content]
    refine ⟨hmap, ?_, ?_⟩
    · have := congrArg List.length hmap
      simpa using this
    · rw [List.filter_append, edu_filter_ne_idem, eduRowsFrom_filter_ne,
        List.append_nil]
  · intro he
    rw [hedu, if_pos he]

/-- Witness for C2: re-saving with a non-empty experiences list replaces the
profile's Experience rows with exactly the incoming list's content. -/
theorem C2_child_replace_all_witness :
    exRecord2.experiences ≠ [] ∧
      ((save_profile noFailE noFailD 1 exStore1 exRecord2 true).1.experiences.filter
          (fun e => e.person_id = (newPersonRow 0 0 exRecord "https://linkedin.com/in/u1").id)).map
          ExperienceRow.content =
        exRecord2.experiences.map ExpData.content := by
  have h := C2_child_replace_all 1 exStore1 exRecord2 true
    (newPersonRow 0 0 exRecord "https://linkedin.com/in/u1") rfl rfl
  obtain ⟨h1, -, -, -⟩ := h
  exact ⟨by decide, (h1 (by decide)).1⟩

/-- C8.  Create-path postconditions: a record whose external identifier is
unseen inserts one new Profile row with first-seen = last-seen = now, touch
counter 1 and active flag set, and inserts all Experience/Education children
from the record (missing optional child fields default to empty/absent), and
writes no History row; the save succeeds for every such record, whatever
optional fields are missing. -/
theorem C8_create_path (now : Nat) (s : Store) (data : PersonData) (track : Bool)
    (hurl : truthy data.linkedin_url = true)
    (hfind : s.persons.find? (fun q => q.linkedin_url = data.linkedin_url.getD "") = none) :
    ∃ p', (save_profile noFailE noFailD now s data track).2 = Except.ok p' ∧
      p'.linkedin_url = data.linkedin_url.getD "" ∧
      p'.first_scraped_at = now ∧
      p'.last_scraped_at = now ∧
      p'.scrape_count = 1 ∧
      p'.is_active = true ∧
      (save_profile noFailE noFailD now s data track).1.persons = s.persons ++ [p'] ∧
      (save_profile noFailE noFailD now s data track).1.history = s.history ∧
      ((save_profile noFailE noFailD now s data track).1.experiences.drop
          s.experiences.length).map ExperienceRow.content =
        data.experiences.map ExpData.content ∧
      (∀ r ∈ (save_profile noFailE noFailD now s data track).1.experiences.drop
          s.experiences.length, r.person_id = p'.id) ∧
      ((save_profile noFailE noFailD now s data track).1.educations.drop
          s.educations.length).map EducationRow.content =
        data.educations.map EduData.content ∧
      (∀ r ∈ (save_profile noFailE noFailD now s data track).1.educations.drop
          s.educations.length, r.person_id = p'.id) := by
  obtain ⟨hok, hpers, hhist, hexp, hedu, -⟩ := save_create_spec now s data track hurl hfind
  refine ⟨newPersonRow s.next_person_id now data (data.linkedin_url.getD ""),
    hok, rfl, rfl, rfl, rfl, rfl, hpers, hhist, ?_, ?_, ?_, ?_⟩
  · rw [hexp, List.drop_left, expRowsFrom_content]
  · rw [hexp, List.drop_left]
    exact expRowsFrom_person_id _ _ _ _
  · rw [hedu, List.drop_left, eduRowsFrom_content]
  · rw [hedu, List.drop_left]
    exact eduRowsFrom_person_id _ _ _ _

/-- Witness for C8, creating `exRecord` in the empty store. -/
theorem C8_create_path_witness :
    truthy exRecord.linkedin_url = true ∧
      ∃ p', (save_profile noFailE noFailD 0 Store.empty exRecord true).2 = Except.ok p' ∧
        p'.scrape_count = 1 ∧ p'.is_active = true := by
  obtain ⟨p', hok, -, -, -, h5, h6, -⟩ :=
    C8_create_path 0 Store.empty exRecord true rfl rfl
  exact ⟨rfl, p', hok, h5, h6⟩

/-- C10.  `track_changes` gates only the audit log: on the update path,
saving with `track_changes = false` produces exactly the Person, Experience
and Education state of the `track_changes = true` call (same returned row,
same scalar overwrites, child replacement, last-seen and touch updates) and
writes no History row at all. -/
theorem C10_track_gates_only_history (now : Nat) (s : Store) (data : PersonData)
    (p : PersonRow)
    (hurl : truthy data.linkedin_url = true)
    (hfind : s.persons.find? (fun q => q.linkedin_url = data.linkedin_url.getD "") = some p) :
    (save_profile noFailE noFailD now s data false).2 =
        (save_profile noFailE noFailD now s data true).2 ∧
      (save_profile noFailE noFailD now s data false).1.persons =
        (save_profile noFailE noFailD now s data true).1.persons ∧
      (save_profile noFailE noFailD now s data false).1.experiences =
        (save_profile noFailE noFailD now s data true).1.experiences ∧
      (save_profile noFailE noFailD now s data false).1.educations =
        (save_profile noFailE noFailD now s data true).1.educations ∧
      (save_profile noFailE noFailD now s data false).1.history = s.history := by
  obtain ⟨hokF, hpersF, hhistF, hexpF, heduF, -⟩ :=
    save_update_spec now s data false p hurl hfind
  obtain ⟨hokT, hpersT, hhistT, hexpT, heduT, -⟩ :=
    save_update_spec now s data true p hurl hfind
  refine ⟨by rw [hokF, hokT], by rw [hpersF, hpersT], by rw [hexpF, hexpT],
    by rw [heduF, heduT], ?_⟩
  rw [hhistF]
  simp

/-- Witness for C10, re-saving `exRecord2` (a changed company) with
tracking off. -/
theorem C10_track_gates_only_history_witness :
    truthy exRecord2.linkedin_url = true ∧
      (save_profile noFailE noFailD 1 exStore1 exRecord2 false).1.history =
        exStore1.history := by
  obtain ⟨-, -, -, -, h5⟩ := C10_track_gates_only_history 1 exStore1 exRecord2
    (newPersonRow 0 0 exRecord "https://linkedin.com/in/u1") rfl rfl
  exact ⟨rfl, h5⟩

theorem mem_insertByCountDesc (x : String × Nat) (l : List (String × Nat))
    (y : String × Nat) : y ∈ insertByCountDesc x l ↔ y = x ∨ y ∈ l := by
  induction l with
  | nil => simp [insertByCountDesc]
  | cons a t ih =>
    by_cases h : a.2 ≤ x.2 <;> simp [insertByCountDesc, h, ih] <;> tauto

theorem mem_sortByCountDesc (l : List (String × Nat)) (y : String × Nat) :
    y ∈ sortByCountDesc l ↔ y ∈ l := by
  induction l with
  | nil => simp [sortByCountDesc]
  | cons a t ih => simp [sortByCountDesc, mem_insertByCountDesc, ih]

theorem pairwise_insertByCountDesc (x : String × Nat) (l : List (String × Nat))
    (h : l.Pairwise (fun a b => b.2 ≤ a.2)) :
    (insertByCountDesc x l).Pairwise (fun a b => b.2 ≤ a.2) := by
  induction l with
  | nil => simp [insertByCountDesc]
  | cons a t ih =>
    rw [List.pairwise_cons] at h
    by_cases hle : a.2 ≤ x.2
    · rw [insertByCountDesc, if_pos hle, List.pairwise_cons]
      refine ⟨?_, List.pairwise_cons.mpr h⟩
      intro b hb
      rcases List.mem_cons.mp hb with rfl | hb2
      · exact hle
      · exact le_trans (h.1 b hb2) hle
    · rw [insertByCountDesc, if_neg hle, List.pairwise_cons]
      refine ⟨?_, ih h.2⟩
      intro b hb
      rcases (mem_insertByCountDesc x t b).mp hb with rfl | hb2
      · omega
      · exact h.1 b hb2

theorem pairwise_sortByCountDesc (l : List (String × Nat)) :
    (sortByCountDesc l).Pairwise (fun a b => b.2 ≤ a.2) := by
  induction l with
  | nil => exact List.Pairwise.nil
  | cons a t ih => exact pairwise_insertByCountDesc a _ ih

theorem groupCountTop_spec (rows : List PersonRow) (f : PersonRow → Option String)
    (lim : Nat) :
    (groupCountTop rows f lim).Pairwise (fun a b => b.2 ≤ a.2) ∧
      (groupCountTop rows f lim).length ≤ lim ∧
      ∀ x ∈ groupCountTop rows f lim,
        (∃ p ∈ rows, f p = some x.1) ∧
        x.2 = (rows.filter (fun p => f p = some x.1)).length := by
  refine ⟨?_, ?_, ?_⟩
  · exact (pairwise_sortByCountDesc _).sublist (List.take_sublist _ _)
  · exact List.length_take_le _ _
  · intro x hx
    have hx2 : x ∈ sortByCountDesc ((rows.filterMap f).dedup.map
        (fun k => (k, (rows.filter (fun p => f p = some k)).length))) :=
      List.mem_of_mem_take hx
    rw [mem_sortByCountDesc] at hx2
    obtain ⟨k, hk, hxk⟩ := List.mem_map.mp hx2
    obtain ⟨p, hp, hfp⟩ := List.mem_filterMap.mp (List.mem_dedup.mp hk)
    subst hxk
    exact ⟨⟨p, hp, hfp⟩, rfl⟩

theorem filter_active_some_count (l : List PersonRow) (f : PersonRow → Option String)
    (k : String) :
    ((l.filter (fun p => p.is_active ∧ f p ≠ none)).filter
        (fun p => f p = some k)).length =
      (l.filter (fun p => p.is_active ∧ f p = some k)).length := by
  rw [List.filter_filter]
  congr 1
  apply List.filter_congr
  intro p _
  by_cases h1 : p.is_active <;> by_cases h2 : f p = some k <;>
    simp [h1, h2] <;> intro h3 <;> simp [h3] at h2

/-- C9 amended.  Each of the top-companies, top-locations and top-positions
queries groups active profiles by the respective field, counts per group,
sorts descending by count and caps the result at the caller-supplied limit,
with no writes (the query is a pure function of the store); NULL group keys
are excluded, but — contrary to the claim — the empty string is a valid
group key and can appear in the result. -/
theorem C9_aggregation (s : Store) (lim : Nat) :
    ((get_top_companies s lim).Pairwise (fun a b => b.2 ≤ a.2) ∧
      (get_top_companies s lim).length ≤ lim ∧
      ∀ x ∈ get_top_companies s lim,
        (∃ p ∈ s.persons, p.is_active = true ∧ p.current_company = some x.1) ∧
        x.2 = (s.persons.filter
          (fun p => p.is_active ∧ p.current_company = some x.1)).length) ∧
    ((get_top_locations s lim).Pairwise (fun a b => b.2 ≤ a.2) ∧
      (get_top_locations s lim).length ≤ lim ∧
      ∀ x ∈ get_top_locations s lim,
        (∃ p ∈ s.persons, p.is_active = true ∧ p.location = some x.1) ∧
        x.2 = (s.persons.filter
          (fun p => p.is_active ∧ p.location = some x.1)).length) ∧
    ((get_top_positions s lim).Pairwise (fun a b => b.2 ≤ a.2) ∧
      (get_top_positions s lim).length ≤ lim ∧
      ∀ x ∈ get_top_positions s lim,
        (∃ p ∈ s.persons, p.is_active = true ∧ p.current_job_title = some x.1) ∧
        x.2 = (s.persons.filter
          (fun p => p.is_active ∧ p.current_job_title = some x.1)).length) := by
  refine ⟨⟨?_, ?_, ?_⟩, ⟨?_, ?_, ?_⟩, ⟨?_, ?_, ?_⟩⟩
  · exact (groupCountTop_spec _ _ _).1
  · exact (groupCountTop_spec _ _ _).2.1
  · intro x hx
    obtain ⟨⟨p, hp, hfp⟩, hcnt⟩ := (groupCountTop_spec _ _ _).2.2 x hx
    obtain ⟨hpm, hpa⟩ := List.mem_filter.mp hp
    refine ⟨⟨p, hpm, ?_, hfp⟩, ?_⟩
    · simpa using (of_decide_eq_true hpa).1
    · rw [hcnt]
      exact filter_active_some_count s.persons (fun p => p.current_company) x.1
  · exact (groupCountTop_spec _ _ _).1
  · exact (groupCountTop_spec _ _ _).2.1
  · intro x hx
    obtain ⟨⟨p, hp, hfp⟩, hcnt⟩ := (groupCountTop_spec _ _ _).2.2 x hx
    obtain ⟨hpm, hpa⟩ := List.mem_filter.mp hp
    refine ⟨⟨p, hpm, ?_, hfp⟩, ?_⟩
    · simpa using (of_decide_eq_true hpa).1
    · rw [hcnt]
      exact filter_active_some_count s.persons (fun p => p.location) x.1
  · exact (groupCountTop_spec _ _ _).1
  · exact (groupCountTop_spec _ _ _).2.1
  · intro x hx
    obtain ⟨⟨p, hp, hfp⟩, hcnt⟩ := (groupCountTop_spec _ _ _).2.2 x hx
    obtain ⟨hpm, hpa⟩ := List.mem_filter.mp hp
    refine ⟨⟨p, hpm, ?_, hfp⟩, ?_⟩
    · simpa using (of_decide_eq_true hpa).1
    · rw [hcnt]
      exact filter_active_some_count s.persons (fun p => p.current_job_title) x.1

/-- An active Person row whose stored company is the empty string. -/
def exPersonEmptyCo : PersonRow :=
  { id := 0, linkedin_url := "https://linkedin.com/in/u9",
    name := "Bob", location := none, current_job_title := none,
    current_company := some "", about := none, first_scraped_at := 0,
    last_scraped_at := 0, scrape_count := 1, is_active := true }

/-- A store holding one active profile whose company is the empty string. -/
def exStoreEmptyCo : Store :=
  { persons := [exPersonEmptyCo],
    experiences := [], educations := [], history := [],
    next_person_id := 1, next_exp_id := 0, next_edu_id := 0, next_hist_id := 0 }

/-- C9 counterexample.  The claim says groups whose key is the empty string
never appear; the SQL filter is only `current_company != None`
(`operations.py` line 365), so an active profile whose stored company is ""
yields the group ("", 1) in the top-companies result. -/
theorem C9_counterexample :
    get_top_companies exStoreEmptyCo 10 = [("", 1)] ∧
      ("", 1) ∈ get_top_companies exStoreEmptyCo 10 := by
  have h : get_top_companies exStoreEmptyCo 10 = [("", 1)] := by decide
  exact ⟨h, by rw [h]; simp⟩

theorem truthy_eq_some (o : Option String) (h : truthy o = true) :
    o = some (o.getD "") ∧ o.getD "" ≠ "" := by
  cases o with
  | none => simp [truthy] at h
  | some v =>
    refine ⟨rfl, ?_⟩
    simpa [truthy] using h

theorem applyField_self (st : Option String) : applyField st st = (st, none) := by
  cases st with
  | none => rfl
  | some v => exact applyField_eq_stored _ _ rfl

theorem applyField_fst_truthy (st inc : Option String) (h : truthy inc = true) :
    (applyField st inc).1 = inc := by
  rw [applyField_fst]
  by_cases hst : st = inc <;> simp [h, hst]

/-- When the stored row already agrees with the record, the scalar merge
records no change and only touches the metadata. -/
theorem scalarMerge_fieldsMatch (p : PersonRow) (now : Nat) (data : PersonData)
    (h : FieldsMatch p data) :
    scalarMerge p now data =
      ({ p with last_scraped_at := now, scrape_count := p.scrape_count + 1 }, []) := by
  obtain ⟨hn, hl, hj, hc, ha⟩ := h
  have en : applyField (some p.name) data.name = (some p.name, none) := by
    rcases hn with h | h
    · exact applyField_not_truthy _ _ h
    · rw [h]; exact applyField_self _
  have el : applyField p.location data.location = (p.location, none) := by
    rcases hl with h | h
    · exact applyField_not_truthy _ _ h
    · rw [h]; exact applyField_self _
  have ej : applyField p.current_job_title data.job_title =
      (p.current_job_title, none) := by
    rcases hj with h | h
    · exact applyField_not_truthy _ _ h
    · rw [h]; exact applyField_self _
  have ec : applyField p.current_company data.company =
      (p.current_company, none) := by
    rcases hc with h | h
    · exact applyField_not_truthy _ _ h
    · rw [h]; exact applyField_self _
  have ea : applyField p.about data.about = (p.about, none) := by
    rcases ha with h | h
    · exact applyField_not_truthy _ _ h
    · rw [h]; exact applyField_self _
  apply Prod.ext
  · rw [scalarMerge_fields, en, el, ej, ec, ea]
    rfl
  · rw [scalarMerge_changes, en, el, ej, ec, ea]
    rfl

/-- After any successful save, the returned row agrees with the record. -/
theorem save_fieldsMatch (now : Nat) (s : Store) (data : PersonData)
    (track : Bool) (p' : PersonRow)
    (h : (save_profile noFailE noFailD now s data track).2 = Except.ok p') :
    FieldsMatch p' data := by
  by_cases hurl : truthy data.linkedin_url
  · cases hfind : s.persons.find?
        (fun q => q.linkedin_url = data.linkedin_url.getD "") with
    | some p =>
      obtain ⟨hok, -, -, -, -, -⟩ := save_update_spec now s data track p hurl hfind
      rw [h] at hok
      injection hok with hok
      subst hok
      refine ⟨?_, ?_, ?_, ?_, ?_⟩
      · by_cases ht : truthy data.name = true
        · right
          rw [scalarMerge_fields]
          simp only []
          rw [applyField_fst_truthy _ _ ht]
          obtain ⟨he, -⟩ := truthy_eq_some data.name ht
          rw [he]
          simp
        · exact Or.inl (by simpa using ht)
      · by_cases ht : truthy data.location = true
        · right
          rw [scalarMerge_fields]
          simp only []
          rw [applyField_fst_truthy _ _ ht]
        · exact Or.inl (by simpa using ht)
      · by_cases ht : truthy data.job_title = true
        · right
          rw [scalarMerge_fields]
          simp only []
          rw [applyField_fst_truthy _ _ ht]
        · exact Or.inl (by simpa using ht)
      · by_cases ht : truthy data.company = true
        · right
          rw [scalarMerge_fields]
          simp only []
          rw [applyField_fst_truthy _ _ ht]
        · exact Or.inl (by simpa using ht)
      · by_cases ht : truthy data.about = true
        · right
          rw [scalarMerge_fields]
          simp only []
          rw [applyField_fst_truthy _ _ ht]
        · exact Or.inl (by simpa using ht)
    | none =>
      obtain ⟨hok, -, -, -, -, -⟩ := save_create_spec now s data track hurl hfind
      rw [h] at hok
      injection hok with hok
      subst hok
      refine ⟨?_, Or.inr rfl, Or.inr rfl, Or.inr rfl, Or.inr rfl⟩
      by_cases ht : truthy data.name = true
      · right
        cases hd : data.name with
        | none => rw [hd] at ht; simp [truthy] at ht
        | some v => simp [newPersonRow, hd]
      · exact Or.inl (by simpa using ht)
  · have heq : save_profile noFailE noFailD now s data track =
        (s, Except.error SaveError.validationError) := by
      unfold save_profile saveProfileCore
      simp [hurl]
    rw [heq] at h
    exact absurd h (by simp)

theorem find?_map_pres (f : PersonRow → PersonRow) (pr : PersonRow → Bool)
    (l : List PersonRow) (h : ∀ q ∈ l, pr (f q) = pr q) :
    (l.map f).find? pr = (l.find? pr).map f := by
  induction l with
  | nil => rfl
  | cons a t ih =>
    have ha := h a (List.mem_cons_self _ _)
    cases hpa : pr a with
    | true =>
      rw [List.map_cons, List.find?_cons_of_pos _ (by rw [ha, hpa]),
        List.find?_cons_of_pos _ hpa, Option.map_some']
    | false =>
      rw [List.map_cons, List.find?_cons_of_neg _ (by rw [ha]; simp [hpa]),
        List.find?_cons_of_neg _ (by simp [hpa]),
        ih (fun q hq => h q (List.mem_cons_of_mem _ hq))]

theorem find?_append_none (pr : PersonRow → Bool) (l1 l2 : List PersonRow)
    (h : l1.find? pr = none) : (l1 ++ l2).find? pr = l2.find? pr := by
  induction l1 with
  | nil => rfl
  | cons a t ih =>
    cases hpa : pr a with
    | true => rw [List.find?_cons_of_pos _ hpa] at h; cases h
    | false =>
      rw [List.find?_cons_of_neg _ (by simp [hpa])] at h
      rw [List.cons_append, List.find?_cons_of_neg _ (by simp [hpa]), ih h]

/-- After a successful save, looking the record's url up again finds exactly
the returned row. -/
theorem save_find_result (now : Nat) (s : Store) (data : PersonData)
    (track : Bool) (p1 : PersonRow)
    (hinv : PersonsInv s)
    (h : (save_profile noFailE noFailD now s data track).2 = Except.ok p1) :
    (save_profile noFailE noFailD now s data track).1.persons.find?
      (fun q => q.linkedin_url = data.linkedin_url.getD "") = some p1 := by
  obtain ⟨hpw_url, hne, hpw_id, hlt⟩ := hinv
  by_cases hurl : truthy data.linkedin_url
  · cases hfind : s.persons.find?
        (fun q => q.linkedin_url = data.linkedin_url.getD "") with
    | some p =>
      obtain ⟨hok, hpers, -, -, -, -⟩ := save_update_spec now s data track p hurl hfind
      rw [h] at hok
      injection hok with hok
      subst hok
      have hpmem : p ∈ s.persons := List.mem_of_find?_eq_some hfind
      rw [hpers]
      rw [find?_map_pres]
      · rw [hfind, Option.map_some']
        simp
      · intro q hq
        by_cases hqp : q.id = p.id
        · have : q = p := mem_id_eq hpw_id hq hpmem hqp
          subst this
          simp [hqp, scalarMerge_url]
        · simp [hqp]
    | none =>
      obtain ⟨hok, hpers, -, -, -, -⟩ := save_create_spec now s data track hurl hfind
      rw [h] at hok
      injection hok with hok
      subst hok
      rw [hpers, find?_append_none _ _ _ hfind]
      rw [List.find?_cons_of_pos]
      simp [newPersonRow]
  · have heq : save_profile noFailE noFailD now s data track =
        (s, Except.error SaveError.validationError) := by
      unfold save_profile saveProfileCore
      simp [hurl]
    rw [heq] at h
    exact absurd h (by simp)

theorem childFK_filter_exps (s : Store) (hinv : PersonsInv s) (hfk : ChildFK s) :
    s.experiences.filter (fun e => e.person_id ≠ s.next_person_id) =
      s.experiences := by
  rw [List.filter_eq_self]
  intro a ha
  obtain ⟨q, hq, he⟩ := hfk.1 a ha
  have := hinv.2.2.2 q hq
  simp only [ne_eq, decide_not, Bool.not_eq_eq_eq_not, Bool.not_true,
    decide_eq_false_iff_not]
  omega

theorem childFK_filter_edus (s : Store) (hinv : PersonsInv s) (hfk : ChildFK s) :
    s.educations.filter (fun e => e.person_id ≠ s.next_person_id) =
      s.educations := by
  rw [List.filter_eq_self]
  intro a ha
  obtain ⟨q, hq, he⟩ := hfk.2 a ha
  have := hinv.2.2.2 q hq
  simp only [ne_eq, decide_not, Bool.not_eq_eq_eq_not, Bool.not_true,
    decide_eq_false_iff_not]
  omega

/-- C7 amended.  Idempotent re-save with unconditional touch: re-saving a
just-saved record increments the touch counter by exactly 1, sets last-seen
to the new time, changes no scalar field, writes zero History rows, and
leaves the Experience/Education content identical — though when the incoming
child lists are non-empty the rows are deleted and re-inserted, so their
surrogate ids and `created_at` timestamps are fresh; the rows are
byte-identical exactly when the incoming lists are empty. -/
theorem C7_idempotent_resave (now1 now2 : Nat) (s0 : Store) (data : PersonData)
    (track : Bool) (p1 : PersonRow)
    (hinv : PersonsInv s0) (hfk : ChildFK s0)
    (h1 : (save_profile noFailE noFailD now1 s0 data track).2 = Except.ok p1) :
    ∃ p2, (save_profile noFailE noFailD now2
        (save_profile noFailE noFailD now1 s0 data track).1 data track).2 =
          Except.ok p2 ∧
      p2.scrape_count = p1.scrape_count + 1 ∧
      p2.last_scraped_at = now2 ∧
      p2.name = p1.name ∧
      p2.location = p1.location ∧
      p2.current_job_title = p1.current_job_title ∧
      p2.current_company = p1.current_company ∧
      p2.about = p1.about ∧
      (save_profile noFailE noFailD now2
        (save_profile noFailE noFailD now1 s0 data track).1 data track).1.history =
        (save_profile noFailE noFailD now1 s0 data track).1.history ∧
      (save_profile noFailE noFailD now2
        (save_profile noFailE noFailD now1 s0 data track).1 data track).1.experiences.map
          ExperienceRow.content =
        (save_profile noFailE noFailD now1 s0 data track).1.experiences.map
          ExperienceRow.content ∧
      (save_profile noFailE noFailD now2
        (save_profile noFailE noFailD now1 s0 data track).1 data track).1.educations.map
          EducationRow.content =
        (save_profile noFailE noFailD now1 s0 data track).1.educations.map
          EducationRow.content ∧
      (data.experiences = [] →
        (save_profile noFailE noFailD now2
          (save_profile noFailE noFailD now1 s0 data track).1 data track).1.experiences =
          (save_profile noFailE noFailD now1 s0 data track).1.experiences) ∧
      (data.educations = [] →
        (save_profile noFailE noFailD now2
          (save_profile noFailE noFailD now1 s0 data track).1 data track).1.educations =
          (save_profile noFailE noFailD now1 s0 data track).1.educations) := by
  by_cases hurl : truthy data.linkedin_url
  · have hfind1 := save_find_result now1 s0 data track p1 hinv h1
    have hmatch := save_fieldsMatch now1 s0 data track p1 h1
    have hmerge := scalarMerge_fieldsMatch p1 now2 data hmatch
    obtain ⟨hok2, hpers2, hhist2, hexp2, hedu2, -⟩ :=
      save_update_spec now2 (save_profile noFailE noFailD now1 s0 data track).1
        data track p1 hurl hfind1
    refine ⟨(scalarMerge p1 now2 data).1, hok2, ?_, ?_, ?_, ?_, ?_, ?_, ?_,
      ?_, ?_, ?_, ?_, ?_⟩
    · rw [hmerge]
    · rw [hmerge]
    · rw [hmerge]
    · rw [hmerge]
    · rw [hmerge]
    · rw [hmerge]
    · rw [hmerge]
    · rw [hhist2, hmerge]
      simp
    · rw [hexp2]
      by_cases he : data.experiences = []
      · rw [if_pos he]
      · rw [if_neg he]
        cases hfind0 : s0.persons.find?
            (fun q => q.linkedin_url = data.linkedin_url.getD "") with
        | some p0 =>
          obtain ⟨hok1, -, -, hexp1, -, -⟩ :=
            save_update_spec now1 s0 data track p0 hurl hfind0
          rw [h1] at hok1
          injection hok1 with hok1
          subst hok1
          rw [hexp1, if_neg he, scalarMerge_id, List.filter_append,
            exp_filter_ne_idem, expRowsFrom_filter_ne, List.append_nil,
            List.map_append, List.map_append, expRowsFrom_content,
            expRowsFrom_content]
        | none =>
          obtain ⟨hok1, -, -, hexp1, -, -⟩ :=
            save_create_spec now1 s0 data track hurl hfind0
          rw [h1] at hok1
          injection hok1 with hok1
          subst hok1
          rw [hexp1, List.filter_append]
          have hid : (newPersonRow s0.next_person_id now1 data
              (data.linkedin_url.getD "")).id = s0.next_person_id := rfl
          rw [hid, childFK_filter_exps s0 ⟨hinv.1, hinv.2.1, hinv.2.2.1, hinv.2.2.2⟩ hfk,
            expRowsFrom_filter_ne, List.append_nil, List.map_append,
            List.map_append, expRowsFrom_content, expRowsFrom_content]
    · rw [hedu2]
      by_cases hd : data.educations = []
      · rw [if_pos hd]
      · rw [if_neg hd]
        cases hfind0 : s0.persons.find?
            (fun q => q.linkedin_url = data.linkedin_url.getD "") with
        | some p0 =>
          obtain ⟨hok1, -, -, -, hedu1, -⟩ :=
            save_update_spec now1 s0 data track p0 hurl hfind0
          rw [h1] at hok1
          injection hok1 with hok1
          subst hok1
          rw [hedu1, if_neg hd, scalarMerge_id, List.filter_append,
            edu_filter_ne_idem, eduRowsFrom_filter_ne, List.append_nil,
            List.map_append, List.map_append, eduRowsFrom_content,
            eduRowsFrom_content]
        | none =>
          obtain ⟨hok1, -, -, -, hedu1, -⟩ :=
            save_create_spec now1 s0 data track hurl hfind0
          rw [h1] at hok1
          injection hok1 with hok1
          subst hok1
          rw [hedu1, List.filter_append]
          have hid : (newPersonRow s0.next_person_id now1 data
              (data.linkedin_url.getD "")).id = s0.next_person_id := rfl
          rw [hid, childFK_filter_edus s0 ⟨hinv.1, hinv.2.1, hinv.2.2.1, hinv.2.2.2⟩ hfk,
            eduRowsFrom_filter_ne, List.append_nil, List.map_append,
            List.map_append, eduRowsFrom_content, eduRowsFrom_content]
    · intro he
      rw [hexp2, if_pos he]
    · intro hd
      rw [hedu2, if_pos hd]
  · have heq : save_profile noFailE noFailD now1 s0 data track =
        (s0, Except.error SaveError.validationError) := by
      unfold save_profile saveProfileCore
      simp [hurl]
    rw [heq] at h1
    exact absurd h1 (by simp)

/-- C7 counterexample.  Re-saving the identical record writes zero History
rows, but the Experience rows are NOT byte-identical: the replace-all path
deletes and re-inserts them, so the stored rows carry a fresh surrogate id
and a fresh `created_at` timestamp. -/
theorem C7_counterexample :
    (save_profile noFailE noFailD 1 exStore1 exRecord true).1.history =
        exStore1.history ∧
      (save_profile noFailE noFailD 1 exStore1 exRecord true).1.experiences ≠
        exStore1.experiences := by
  exact ⟨rfl, by decide⟩

/-- Witness for C7 amended: creating `exRecord` then re-saving it bumps the
touch counter to 2 and last-seen to the second save's time. -/
theorem C7_idempotent_resave_witness :
    (save_profile noFailE noFailD 0 Store.empty exRecord true).2 =
        Except.ok (newPersonRow 0 0 exRecord "https://linkedin.com/in/u1") ∧
      ∃ p2, (save_profile noFailE noFailD 1
          (save_profile noFailE noFailD 0 Store.empty exRecord true).1
          exRecord true).2 = Except.ok p2 ∧
        p2.scrape_count = 2 ∧ p2.last_scraped_at = 1 := by
  have hinv : PersonsInv Store.empty := by
    refine ⟨List.Pairwise.nil, ?_, List.Pairwise.nil, ?_⟩ <;> intro p hp <;> cases hp
  have hfk : ChildFK Store.empty := by
    refine ⟨?_, ?_⟩ <;> intro e he <;> cases he
  obtain ⟨p2, hok, hcount, hlast, -⟩ := C7_idempotent_resave 0 1 Store.empty
    exRecord true (newPersonRow 0 0 exRecord "https://linkedin.com/in/u1")
    hinv hfk rfl
  exact ⟨rfl, p2, hok, hcount, hlast⟩

/-- Witness for C9 amended, at a concrete store and limit. -/
theorem C9_aggregation_witness :
    (get_top_companies exStoreEmptyCo 10).length ≤ 10 ∧
      (get_top_locations exStoreEmptyCo 10).length ≤ 10 ∧
      (get_top_positions exStoreEmptyCo 10).length ≤ 10 :=
  ⟨(C9_aggregation exStoreEmptyCo 10).1.2.1,
   (C9_aggregation exStoreEmptyCo 10).2.1.2.1,
   (C9_aggregation exStoreEmptyCo 10).2.2.2.1⟩
